import Mathlib

/-!
# Verification of the EvaluateFactory generation/execution pipeline

This file gives a shallow embedding of the core pipeline implemented in
`src/app/api/run-task/route.ts` of the EvaluateFactory repository: the
content classifier (`classifyAndCacheKnowledgeContent`), the task planner
(the `totalTasks` computation in `runTask`), the retry-wrapped model
invoker (`safeModelCall`), the sequential execution engine
(`executeGenerationTask` / `runTask` / the `POST` handler), and the
timestamp helper (`getTimestamp`).

Stateful code is embedded as explicit state passing over an engine state
(`EngineSt`), with every observable effect (progress events, directory
creation, log/result-file writes, model-call attempts, retry delays,
cancellation polls) recorded as an element of an event trace (`Ev`).
Cancellation is modelled by an optional arrival time `cancelAt`: the flag
reads true at every instant from that time on, where time counts emitted
trace events.  The external chat service is modelled by an oracle giving
the outcome of each attempt of each task.
-/

namespace EvaluateFactory

/-! ## Knowledge classification (`classifyAndCacheKnowledgeContent`)

The source counts matches of the regular expression `(^Q:.*\s*\n^A:.*)`
with flags `gm`.  A (non-overlapping, leftmost) match is a line starting
with `Q:`, followed by zero or more whitespace-only lines, followed by a
line starting with `A:`.  `countQAAux` is the line-level automaton with a
flag recording whether a `Q:` line is pending. -/

def isWsLine (l : List Char) : Bool :=
  l.all Char.isWhitespace

/-- Decomposition of a string into its lines (split at `'\n'`). -/
def splitNl : List Char → List Char → List (List Char)
  | acc, [] => [acc.reverse]
  | acc, '\n' :: rest => acc.reverse :: splitNl [] rest
  | acc, c :: rest => splitNl (c :: acc) rest

def linesOf (s : String) : List (List Char) :=
  splitNl [] s.data

def lineStartsQ : List Char → Bool
  | 'Q' :: ':' :: _ => true
  | _ => false

def lineStartsA : List Char → Bool
  | 'A' :: ':' :: _ => true
  | _ => false

def countQAAux : Bool → List (List Char) → Nat
  | _, [] => 0
  | true, l :: rest =>
    if lineStartsA l then 1 + countQAAux false rest
    else if isWsLine l then countQAAux true rest
    else if lineStartsQ l then countQAAux true rest
    else countQAAux false rest
  | false, l :: rest =>
    if lineStartsQ l then countQAAux true rest
    else countQAAux false rest

/-- Number of matches of `/(^Q:.*\s*\n^A:.*)/gm` in a file's content. -/
def countQA (content : String) : Nat :=
  countQAAux false (linesOf content)

/-! The source splits file content with `content.split(/\n\s*\n/)`.
A separator is a newline, a run of whitespace, and a final newline
(`\s*` greedy); on the line decomposition of the content this is a
maximal interior run of whitespace-only lines.  `splitBLGo` scans the
lines with the current (reversed) block and the current (reversed)
pending run of whitespace-only lines. -/

def splitBLGo : List (List Char) → List (List Char) → List (List Char) →
    List (List (List Char))
  | cur, pend, [] =>
    if 2 ≤ pend.length then [cur.reverse, [pend.headD ([])]]
    else [cur.reverse ++ pend.reverse]
  | cur, pend, l :: rest =>
    if isWsLine l then splitBLGo cur (l :: pend) rest
    else if pend.isEmpty then splitBLGo (l :: cur) [] rest
    else cur.reverse :: splitBLGo [l] [] rest

def splitBlankRuns (ls : List (List Char)) : List (List (List Char)) :=
  match ls with
  | [] => [[]]
  | c :: rest => splitBLGo [c] [] rest

/-- Rejoin a block's lines with `'\n'`. -/
def joinNl : List (List Char) → List Char
  | [] => []
  | [l] => l
  | l :: rest => l ++ '\n' :: joinNl rest

/-- `content.split(/\n\s*\n/).filter(p => p.trim())`: the non-empty
blank-line-delimited blocks of a file (a block survives the filter
exactly when it has a non-whitespace character). -/
def blocksOf (content : String) : List String :=
  ((splitBlankRuns (linesOf content)).map
    (fun b => String.mk (joinNl b))).filter
    (fun p => !(p.data.all Char.isWhitespace))

/-- The three caches built by `classifyAndCacheKnowledgeContent`. -/
structure Corpus where
  qaPairs : List String
  chunks : List String
  documents : List (String × String)
deriving Repr, DecidableEq

def emptyCorpus : Corpus := ⟨[], [], []⟩

/-- One file's contribution to the caches: more than 5 `Q:`/`A:` matches
makes the file QA-type (its blocks are pushed to `qaPairs`); otherwise the
whole file is pushed to `documents` and its blocks to `chunks`. -/
def classifyStep (fileName content : String) (K : Corpus) : Corpus :=
  if 5 < countQA content then
    { K with qaPairs := K.qaPairs ++ blocksOf content }
  else
    { K with documents := K.documents ++ [(fileName, content)],
             chunks := K.chunks ++ blocksOf content }

/-- The fatal message thrown by the `catch` around the knowledge scan:
`无法读取知识库目录: ...。请确认文件已上传。错误: e.message`. -/
def fatalDirMsg (m : String) : String :=
  ("无法读取知识库目录: output/project/knowledge。请确认文件已上传。错误: ") ++ m

/-- Directory listing as seen by the scan: `.error m` models `readdir`
throwing; each file carries `.error m` when its `readFile` throws. -/
def FileSys : Type := Except String (List (String × Except String String))

/-- The scan loop without its progress events: the first file whose read
throws aborts the loop with that exception. -/
def classifyPureGo : List (String × Except String String) → Corpus →
    Except String Corpus
  | [], K => Except.ok K
  | (_, Except.error m) :: _, _ => Except.error m
  | (n, Except.ok c) :: rest, K => classifyPureGo rest (classifyStep n c K)

/-- Pure result of the knowledge scan: any exception inside the
`try` block (directory read, or any individual file read) is caught and
rethrown as the fatal directory message. -/
def classifyPure (fsys : FileSys) : Except String Corpus :=
  match fsys with
  | Except.error m => Except.error (fatalDirMsg m)
  | Except.ok files =>
    match classifyPureGo files emptyCorpus with
    | Except.error m => Except.error (fatalDirMsg m)
    | Except.ok K => Except.ok K

/-! ## JSON values and `JSON.parse`

The engine parses model output with `JSON.parse` and reads the
`question` / `answer` members with JavaScript `||` defaulting.  `JVal` is
the type of parsed JSON values; numbers keep their source token (only
their truthiness — zero-ness of the mantissa — is ever consulted). -/

inductive JVal where
  | null : JVal
  | jbool : Bool → JVal
  | jnum : String → JVal
  | jstr : String → JVal
  | jarr : List JVal → JVal
  | jobj : List (String × JVal) → JVal
deriving Repr

/-- JSON whitespace accepted by `JSON.parse`: space, tab, newline, return. -/
def isJsonWs (c : Char) : Bool :=
  c = ' ' || c = '\t' || c = '\n' || c = '\r'

def skipWs (cs : List Char) : List Char :=
  cs.dropWhile isJsonWs

def hexVal (c : Char) : Option Nat :=
  if '0' ≤ c ∧ c ≤ '9' then some (c.toNat - '0'.toNat)
  else if 'a' ≤ c ∧ c ≤ 'f' then some (c.toNat - 'a'.toNat + 10)
  else if 'A' ≤ c ∧ c ≤ 'F' then some (c.toNat - 'A'.toNat + 10)
  else none

/-- String body parser: called after the opening quote, accumulates until
the closing quote, handling the JSON escapes. -/
def escChar (e : Char) : Option Char :=
  if e = '"' then some '"'
  else if e = '\\' then some '\\'
  else if e = '/' then some '/'
  else if e = 'b' then some '\x08'
  else if e = 'f' then some '\x0c'
  else if e = 'n' then some '\n'
  else if e = 'r' then some '\r'
  else if e = 't' then some '\t'
  else none

def pStr : List Char → List Char → Option (String × List Char)
  | _, [] => none
  | acc, c :: rest =>
    if c = '"' then some (String.mk acc.reverse, rest)
    else if c = '\\' then
      match rest with
      | [] => none
      | 'u' :: h1 :: h2 :: h3 :: h4 :: rest2 =>
        match hexVal h1, hexVal h2, hexVal h3, hexVal h4 with
        | some a, some b, some c2, some d =>
          pStr (Char.ofNat (((a * 16 + b) * 16 + c2) * 16 + d) :: acc) rest2
        | _, _, _, _ => none
      | e :: rest1 =>
        match escChar e with
        | some c2 => pStr (c2 :: acc) rest1
        | none => none
    else if c.toNat < 32 then none
    else pStr (c :: acc) rest

/-- JSON number token: `-?(0|[1-9][0-9]*)(\.[0-9]+)?([eE][+-]?[0-9]+)?`.
Returns the raw token and the remaining input. -/
def pNum (cs : List Char) : Option (String × List Char) :=
  let (sign, cs1) :=
    match cs with
    | '-' :: rest => (['-'], rest)
    | _ => (([] : List Char), cs)
  let intPart := cs1.takeWhile Char.isDigit
  let cs2 := cs1.dropWhile Char.isDigit
  if intPart.isEmpty then none
  else if intPart.headD '0' = '0' ∧ 1 < intPart.length then none
  else
    let (fracPart, cs3) :=
      match cs2 with
      | '.' :: rest =>
        let ds := rest.takeWhile Char.isDigit
        if ds.isEmpty then (none, cs2)
        else (some ('.' :: ds), rest.dropWhile Char.isDigit)
      | _ => (none, cs2)
    match fracPart with
    | none =>
      if cs3 ≠ cs2 then none else
      let (expPart, cs4) :=
        match cs3 with
        | e :: rest =>
          if e = 'e' ∨ e = 'E' then
            let (sg, rest2) :=
              match rest with
              | '+' :: r => (['+'], r)
              | '-' :: r => (['-'], r)
              | _ => (([] : List Char), rest)
            let ds := rest2.takeWhile Char.isDigit
            if ds.isEmpty then (none, cs3)
            else (some (e :: sg ++ ds), rest2.dropWhile Char.isDigit)
          else (none, cs3)
        | _ => (none, cs3)
      match expPart with
      | none => some (String.mk (sign ++ intPart), cs4)
      | some ep => some (String.mk (sign ++ intPart ++ ep), cs4)
    | some fp =>
      let (expPart, cs4) :=
        match cs3 with
        | e :: rest =>
          if e = 'e' ∨ e = 'E' then
            let (sg, rest2) :=
              match rest with
              | '+' :: r => (['+'], r)
              | '-' :: r => (['-'], r)
              | _ => (([] : List Char), rest)
            let ds := rest2.takeWhile Char.isDigit
            if ds.isEmpty then (none, cs3)
            else (some (e :: sg ++ ds), rest2.dropWhile Char.isDigit)
          else (none, cs3)
        | _ => (none, cs3)
      match expPart with
      | none => some (String.mk (sign ++ intPart ++ fp), cs4)
      | some ep => some (String.mk (sign ++ intPart ++ fp ++ ep), cs4)

mutual

/-- Fueled recursive-descent JSON value parser. -/
def pV : Nat → List Char → Option (JVal × List Char)
  | 0, _ => none
  | fuel + 1, cs =>
    match skipWs cs with
    | 'n' :: 'u' :: 'l' :: 'l' :: rest => some (JVal.null, rest)
    | 't' :: 'r' :: 'u' :: 'e' :: rest => some (JVal.jbool true, rest)
    | 'f' :: 'a' :: 'l' :: 's' :: 'e' :: rest => some (JVal.jbool false, rest)
    | '"' :: rest =>
      match pStr [] rest with
      | some (s, r) => some (JVal.jstr s, r)
      | none => none
    | '[' :: rest =>
      match skipWs rest with
      | ']' :: r2 => some (JVal.jarr [], r2)
      | _ =>
        match pArr fuel rest with
        | some (xs, r) => some (JVal.jarr xs, r)
        | none => none
    | '\x7b' :: rest =>
      match skipWs rest with
      | '\x7d' :: r2 => some (JVal.jobj [], r2)
      | _ =>
        match pObj fuel rest with
        | some (fs, r) => some (JVal.jobj fs, r)
        | none => none
    | c :: rest =>
      if c = '-' ∨ c.isDigit then
        match pNum (c :: rest) with
        | some (tok, r) => some (JVal.jnum tok, r)
        | none => none
      else none
    | [] => none

/-- Array elements (at least one), ending at `]`. -/
def pArr : Nat → List Char → Option (List JVal × List Char)
  | 0, _ => none
  | fuel + 1, cs =>
    match pV fuel cs with
    | some (v, r) =>
      match skipWs r with
      | ',' :: r2 =>
        match pArr fuel r2 with
        | some (xs, r3) => some (v :: xs, r3)
        | none => none
      | ']' :: r2 => some ([v], r2)
      | _ => none
    | none => none

/-- Object members (at least one), ending at `}`. -/
def pObj : Nat → List Char → Option (List (String × JVal) × List Char)
  | 0, _ => none
  | fuel + 1, cs =>
    match skipWs cs with
    | '"' :: rest =>
      match pStr [] rest with
      | some (k, r) =>
        match skipWs r with
        | ':' :: r2 =>
          match pV fuel r2 with
          | some (v, r3) =>
            match skipWs r3 with
            | ',' :: r4 =>
              match pObj fuel r4 with
              | some (fs, r5) => some ((k, v) :: fs, r5)
              | none => none
            | '\x7d' :: r4 => some ([(k, v)], r4)
            | _ => none
          | none => none
        | _ => none
      | none => none
    | _ => none

end

/-- `JSON.parse`: parse one value, then require only whitespace to
remain; `none` models a thrown `SyntaxError`. -/
def jsonParse (s : String) : Option JVal :=
  match pV (s.length + 2) s.data with
  | some (v, rest) => if (skipWs rest).isEmpty then some v else none
  | none => none

/-- JavaScript member access `parsed[k]` on a JSON value (objects only;
on duplicate keys the later member wins, as in `JSON.parse`). -/
def jGet (v : JVal) (k : String) : Option JVal :=
  match v with
  | JVal.jobj fs => (fs.reverse.find? (fun f => f.1 == k)).map (fun f => f.2)
  | _ => none

/-- JavaScript truthiness of a JSON value. -/
def truthy : JVal → Bool
  | JVal.null => false
  | JVal.jbool b => b
  | JVal.jnum raw =>
    (raw.data.takeWhile (fun c => c ≠ 'e' ∧ c ≠ 'E')).any
      (fun c => c.isDigit ∧ c ≠ '0')
  | JVal.jstr s => s != ""
  | JVal.jarr _ => true
  | JVal.jobj _ => true

/-- `x || d` for a possibly-undefined member access. -/
def jsOr (o : Option JVal) (d : JVal) : JVal :=
  match o with
  | some v => if truthy v then v else d
  | none => d

/-- `m || d` for strings (empty string is falsy). -/
def jsOrStr (m d : String) : String :=
  if m = "" then d else m

/-! ## Fenced-code-block extraction

`content.match(/```json\s*([\s\S]*?)\s*```/)`: the first `` ```json ``
followed by a later `` ``` `` matches, and the lazy group with the two
greedy `\s*` around it captures the between-text with surrounding
whitespace stripped. -/

def findSubIdx (pat : List Char) : List Char → Option Nat
  | [] => if pat.isEmpty then some 0 else none
  | c :: rest =>
    if pat.isPrefixOf (c :: rest) then some 0
    else (findSubIdx pat rest).map (fun n => n + 1)

def fenceOpen : List Char := ['`', '`', '`', 'j', 's', 'o', 'n']

def fenceClose : List Char := ['`', '`', '`']

/-- Whitespace stripping at both ends (the effect of the greedy `\s*`
around the lazy capture group, and of `String.prototype.trim`). -/
def trimChars (l : List Char) : List Char :=
  ((l.dropWhile Char.isWhitespace).reverse.dropWhile Char.isWhitespace).reverse

def extractFenced (s : String) : Option String :=
  match findSubIdx fenceOpen s.data with
  | none => none
  | some i =>
    let after := s.data.drop (i + 7)
    match findSubIdx fenceClose after with
    | none => none
    | some j => some (String.mk (trimChars (after.take j)))

/-- The string handed to `JSON.parse`: the fenced capture when the fence
regex matches, otherwise the whole content. -/
def effectiveJson (content : String) : String :=
  match extractFenced content with
  | some j => j
  | none => content

def qMarker : String := "解析失败: 缺少question"

def aMarker : String := "解析失败: 缺少answer"

def parseFailMarker : String := "解析JSON失败"

/-- The parse of a successful model response into
`(generatedQuestion, generatedAnswer)`.  Member access on `null` throws
in JavaScript, so a parsed `null` lands in the same `catch` as a syntax
error: the raw content is kept as the answer. -/
def parseGenerated (content : String) : JVal × JVal :=
  match jsonParse (effectiveJson content) with
  | none => (JVal.jstr parseFailMarker, JVal.jstr content)
  | some JVal.null => (JVal.jstr parseFailMarker, JVal.jstr content)
  | some v =>
    (jsOr (jGet v ("question")) (JVal.jstr qMarker),
     jsOr (jGet v ("answer")) (JVal.jstr aMarker))

/-! ## The retry-wrapped model invoker (`safeModelCall`) -/

structure TokenUsage where
  total_tokens : Nat
  prompt_tokens : Nat
  completion_tokens : Nat
deriving Repr, DecidableEq

structure DurationUsage where
  total_duration : Nat
  load_duration : Nat
  prompt_eval_duration : Nat
  eval_duration : Nat
deriving Repr, DecidableEq

/-- Outcome of one underlying `handleChat` call: it throws, it returns a
malformed result (no textual `content` string), or it returns content
with usage and duration statistics. -/
inductive AttemptOutcome where
  | err : String → AttemptOutcome
  | malformed : AttemptOutcome
  | ok : String → TokenUsage → DurationUsage → AttemptOutcome
deriving Repr

structure SafeCallResult where
  success : Bool
  content : Option String
  tokenUsage : Option TokenUsage
  durationUsage : Option DurationUsage
  error : Option String
deriving Repr

def mkFail (m : String) : SafeCallResult :=
  ⟨false, none, none, none, some m⟩

def formatMsg : String := "Model call succeeded but returned unexpected format."

def criticalMsg : String := "A critical error occurred during model call"

def loopExitMsg : String := "Exited retry loop unexpectedly"

inductive TaskType where
  | QA : TaskType
  | Chunk : TaskType
  | Document : TaskType
  | Comprehensive : TaskType
deriving Repr, DecidableEq

def TaskType.render : TaskType → String
  | TaskType.QA => "QA"
  | TaskType.Chunk => "Chunk"
  | TaskType.Document => "Document"
  | TaskType.Comprehensive => "Comprehensive"

/-- One persisted `resultEntry` object
(`{id, taskType, question, answer, score: 10}`). -/
structure ResultEntry where
  id : Nat
  taskType : TaskType
  question : JVal
  answer : JVal
  score : Nat
deriving Repr

/-- `JSON.stringify` of one result entry: the member keys in insertion
order of the object literal. -/
def resultEntryToJson (e : ResultEntry) : JVal :=
  JVal.jobj [(("id"), JVal.jnum (toString e.id)),
             (("taskType"), JVal.jstr e.taskType.render),
             (("question"), e.question),
             (("answer"), e.answer),
             (("score"), JVal.jnum (toString e.score))]

def jsonKeys (v : JVal) : List String :=
  match v with
  | JVal.jobj fs => fs.map (fun f => f.1)
  | _ => []

/-- Trace events of a run: progress events (`log`, `update`,
`stateUpdate`, `tokenUse`, `done`, `errorEv`), cancellation polls,
file-system effects, model-call attempts and the fixed retry delays. -/
inductive Ev where
  | log : String → Ev
  | update : String → Nat → Nat → Ev
  | stateUpdate : String → JVal → JVal → Ev
  | tokenUse : Nat → Ev
  | poll : Bool → Ev
  | mkdirBase : Ev
  | mkdirLoop : Nat → Ev
  | ensureLog : Nat → Ev
  | appendLog : Nat → Ev
  | attempt : Nat → Nat → String → Ev
  | delay : Nat → Ev
  | writeResults : List ResultEntry → Ev
  | done : Ev
  | errorEv : String → Ev
deriving Repr

/-- The `for (let i = 0; i <= retries; i++)` loop of `safeModelCall`.
`fuel` is `retries + 1 - i`; running out of fuel is the unreachable
fall-through after the loop (line 65 of the source). -/
def safeGo (oracle : Nat → AttemptOutcome) (taskId : Nat) (msg : String)
    (retries : Nat) : Nat → Nat → SafeCallResult × List Ev
  | 0, _ => (mkFail loopExitMsg, [])
  | fuel + 1, i =>
    let pre : List Ev := if 0 < i then [Ev.delay 2000] else []
    let evs := pre ++ [Ev.attempt taskId i msg]
    match oracle i with
    | AttemptOutcome.ok c t d =>
      (⟨true, some c, some t, some d, none⟩, evs)
    | AttemptOutcome.malformed =>
      if retries ≤ i then (mkFail formatMsg, evs)
      else
        let (r, evs2) := safeGo oracle taskId msg retries fuel (i + 1)
        (r, evs ++ evs2)
    | AttemptOutcome.err m =>
      if retries ≤ i then (mkFail (jsOrStr m criticalMsg), evs)
      else
        let (r, evs2) := safeGo oracle taskId msg retries fuel (i + 1)
        (r, evs ++ evs2)

def safeModelCall (oracle : Nat → AttemptOutcome) (taskId : Nat)
    (msg : String) (retries : Nat) : SafeCallResult × List Ev :=
  safeGo oracle taskId msg retries (retries + 1) 0

/-! ## The execution engine -/

/-- One element of the `contentArray` argument (`string[]` or
`{name, content}[]` in the source). -/
inductive ContentItem where
  | text : String → ContentItem
  | doc : String → String → ContentItem
deriving Repr, DecidableEq

structure TestConfig where
  qaCount : Nat
  chunkCount : Nat
  documentCount : Nat
  comprehensiveCount : Nat
deriving Repr

structure ProjectConfig where
  workModel : String
  qaSystemPrompt : String
  chunkSystemPrompt : String
  documentSystemPrompt : String
  comprehensiveSystemPrompt : String
deriving Repr

structure Config where
  testConfig : TestConfig
  project : ProjectConfig
deriving Repr

/-- `totalTasks` as computed in `runTask`. -/
def totalTasksOf (K : Corpus) (tc : TestConfig) : Nat :=
  K.qaPairs.length * tc.qaCount + K.chunks.length * tc.chunkCount +
    K.documents.length * tc.documentCount + tc.comprehensiveCount

def totalZeroMsg : String := "总任务数为0。请检查知识库文件或在运行界面设置生成数量。"

def cancelMsg : String := "任务已被用户取消"

/-- The comprehensive context: every document's name and text joined by
the fixed delimiter. -/
def comprehensiveContext (docs : List (String × String)) : String :=
  String.intercalate ("\n\n---\n\n")
    (docs.map (fun d => ("文件名: ") ++ d.1 ++ ("\n") ++ d.2))

/-- Mutable state of one in-flight run.  `time` counts emitted trace
events; cancellation arrival is expressed against this clock. -/
structure EngineSt where
  time : Nat
  currentTask : Nat
  totalTokenUsage : Nat
  allResults : List ResultEntry

def EngineSt.init : EngineSt := ⟨0, 0, 0, []⟩

/-- Static inputs of one run: the cancellation arrival time (if any), the
model oracle (task id and attempt index to outcome) and the caller's
configuration. -/
structure Ctx where
  cancelAt : Option Nat
  oracle : Nat → Nat → AttemptOutcome
  cfg : Config

/-- The cancellation flag read at instant `t`. -/
def cancelledAt (c : Option Nat) (t : Nat) : Bool :=
  match c with
  | some k => decide (k ≤ t)
  | none => false

def bump (st : EngineSt) (n : Nat) : EngineSt :=
  { st with time := st.time + n }

/-- `sendEvent` without an abort check (used directly by `POST` and for
file-system and model effects). -/
def emit (st : EngineSt) (e : Ev) : List Ev × EngineSt :=
  ([e], bump st 1)

/-- The `onProgress` closure built in `POST`: it throws
`任务已被用户取消` when the abort flag is set, else forwards the event.
The poll is recorded in the trace. -/
def onProgress (ctx : Ctx) (st : EngineSt) (e : Ev) :
    List Ev × EngineSt × Option String :=
  if cancelledAt ctx.cancelAt st.time then
    ([Ev.poll true], bump st 1, some cancelMsg)
  else
    ([Ev.poll false, e], bump st 2, none)

/-- An `isCancelled()` call (recorded as a poll). -/
def pollEv (ctx : Ctx) (st : EngineSt) : List Ev × EngineSt × Bool :=
  let b := cancelledAt ctx.cancelAt st.time
  ([Ev.poll b], bump st 1, b)

/-- Identifier and user message of one task
(the `switch (taskType)` block). -/
def taskSourceAndMsg (tt : TaskType) (docs : List (String × String))
    (loop i : Nat) (item : ContentItem) : String × String :=
  let dflt := tt.render ++ ("-") ++ toString loop ++ ("-") ++ toString (i + 1)
  match tt, item with
  | TaskType.Document, ContentItem.doc n c => (n, c)
  | TaskType.Comprehensive, _ => (dflt, comprehensiveContext docs)
  | _, ContentItem.text s => (dflt, s)
  | _, ContentItem.doc _ c => (dflt, c)

def itemText : ContentItem → String
  | ContentItem.text s => s
  | ContentItem.doc _ c => c

/-- Question/answer extraction from one `SafeCallResult`
(lines 314-328 of the source): defaults, then the JSON parse when the
call succeeded with truthy content. -/
def questionAnswerOf (res : SafeCallResult) : JVal × JVal :=
  let dfltAnswer :=
    match res.error with
    | some e => jsOrStr e ("N/A")
    | none => "N/A"
  match res.success, res.content with
  | true, some c =>
    if c = "" then (JVal.jstr ("生成失败"), JVal.jstr dfltAnswer)
    else parseGenerated c
  | _, _ => (JVal.jstr ("生成失败"), JVal.jstr dfltAnswer)

/-- The inner `for (let i = 0; i < contentArray.length; i++)` loop of
`executeGenerationTask`: one task per content item. -/
def execItems (ctx : Ctx) (docs : List (String × String)) (T : Nat)
    (tt : TaskType) (len loop : Nat) :
    List ContentItem → Nat → EngineSt → List Ev × EngineSt × Option String
  | [], _, st => ([], st, none)
  | item :: rest, i, st =>
    let (e1, st1, b) := pollEv ctx st
    if b then (e1, st1, none)
    else
      let st2 := { st1 with currentTask := st1.currentTask + 1 }
      let src := taskSourceAndMsg tt docs loop i item
      let activeMsg := ("[") ++ tt.render ++ ("] ") ++ toString (i + 1) ++
        ("/") ++ toString len ++ (" (第") ++ toString loop ++ ("轮)")
      match onProgress ctx st2 (Ev.update activeMsg st2.currentTask T) with
      | (e2, st3, some m) => (e1 ++ e2, st3, some m)
      | (e2, st3, none) =>
        let (res, sevs) :=
          safeModelCall (ctx.oracle st2.currentTask) st2.currentTask src.2 2
        let st4 := bump st3 sevs.length
        let tokStep : List Ev × EngineSt × Option String :=
          match res.tokenUsage with
          | some tu =>
            let st5 := { st4 with
              totalTokenUsage := st4.totalTokenUsage + tu.total_tokens }
            onProgress ctx st5 (Ev.tokenUse st5.totalTokenUsage)
          | none => ([], st4, none)
        match tokStep with
        | (e3, st5, some m) => (e1 ++ e2 ++ sevs ++ e3, st5, some m)
        | (e3, st5, none) =>
          let qa := questionAnswerOf res
          let (e4, st6) := emit st5 (Ev.appendLog loop)
          match onProgress ctx st6 (Ev.stateUpdate src.1 qa.1 qa.2) with
          | (e5, st7, some m) =>
            (e1 ++ e2 ++ sevs ++ e3 ++ e4 ++ e5, st7, some m)
          | (e5, st7, none) =>
            let entry : ResultEntry := ⟨st2.currentTask, tt, qa.1, qa.2, 10⟩
            let st8 := { st7 with allResults := st7.allResults ++ [entry] }
            let (e6, st9) := emit st8 (Ev.writeResults st8.allResults)
            let (e7, st10, ctl) :=
              execItems ctx docs T tt len loop rest (i + 1) st9
            (e1 ++ e2 ++ sevs ++ e3 ++ e4 ++ e5 ++ e6 ++ e7, st10, ctl)

/-- The outer `for (let loop = 1; loop <= userCount; loop++)` loop. -/
def execLoops (ctx : Ctx) (docs : List (String × String)) (T : Nat)
    (tt : TaskType) (arr : List ContentItem) :
    List Nat → EngineSt → List Ev × EngineSt × Option String
  | [], st => ([], st, none)
  | loop :: rest, st =>
    let (e1, st1, b) := pollEv ctx st
    if b then (e1, st1, none)
    else
      let roundMsg := ("[") ++ tt.render ++ ("] 第 ") ++ toString loop ++
        ("/") ++ toString (loop + rest.length) ++ (" 轮...")
      match onProgress ctx st1 (Ev.log roundMsg) with
      | (e2, st2, some m) => (e1 ++ e2, st2, some m)
      | (e2, st2, none) =>
        let (e3, st3) := emit st2 (Ev.mkdirLoop loop)
        let (e4, st4) := emit st3 (Ev.ensureLog loop)
        match execItems ctx docs T tt arr.length loop arr 0 st4 with
        | (e5, st5, some m) => (e1 ++ e2 ++ e3 ++ e4 ++ e5, st5, some m)
        | (e5, st5, none) =>
          let (e6, st6, ctl) := execLoops ctx docs T tt arr rest st5
          (e1 ++ e2 ++ e3 ++ e4 ++ e5 ++ e6, st6, ctl)

def skipLogMsg (tt : TaskType) (n : Nat) : String :=
  ("警告: [") ++ tt.render ++
    ("] 的系统提示词为空，已跳过该类别的所有 ") ++ toString n ++ (" 个任务。")

def skipUpdateMsg (tt : TaskType) : String :=
  ("跳过 [") ++ tt.render ++ ("] 任务 (系统提示词为空)")

def startMsg (tt : TaskType) : String :=
  ("--- 开始执行 [") ++ tt.render ++ ("] 任务 ---")

/-- `executeGenerationTask`: skip the whole category on a blank system
prompt (still advancing the task counter), return silently on an empty
workload, otherwise run the loops. -/
def executeGenerationTask (ctx : Ctx) (docs : List (String × String))
    (T : Nat) (tt : TaskType) (systemPrompt : String)
    (arr : List ContentItem) (userCount : Nat) (st : EngineSt) :
    List Ev × EngineSt × Option String :=
  if systemPrompt.data.all Char.isWhitespace then
    match onProgress ctx st (Ev.log (skipLogMsg tt (arr.length * userCount))) with
    | (e1, st1, some m) => (e1, st1, some m)
    | (e1, st1, none) =>
      let st2 := { st1 with
        currentTask := st1.currentTask + arr.length * userCount }
      match onProgress ctx st2
          (Ev.update (skipUpdateMsg tt) st2.currentTask T) with
      | (e2, st3, c) => (e1 ++ e2, st3, c)
  else if userCount = 0 ∨ arr.length = 0 then ([], st, none)
  else
    match onProgress ctx st (Ev.log (startMsg tt)) with
    | (e1, st1, some m) => (e1, st1, some m)
    | (e1, st1, none) =>
      let (e2, st2, ctl) :=
        execLoops ctx docs T tt arr (List.range' 1 userCount) st1
      (e1 ++ e2, st2, ctl)

/-! ## The classifier with its progress events -/

def classifyFileMsg (fileName : String) (qa : Bool) : String :=
  if qa then ("文件 \"") ++ fileName ++ ("\" 被分类为 [QA类型]")
  else ("文件 \"") ++ fileName ++ ("\" 被分类为 [文档类型]")

/-- The per-file loop inside the `try` block: a file whose read throws
aborts the loop with that exception; progress events may also throw on
abort (both get caught by the surrounding `catch`). -/
def classifyLoop (ctx : Ctx) :
    List (String × Except String String) → Corpus → EngineSt →
    List Ev × EngineSt × Except String Corpus
  | [], K, st => ([], st, Except.ok K)
  | (_, Except.error m) :: _, _, st => ([], st, Except.error m)
  | (n, Except.ok c) :: rest, K, st =>
    match onProgress ctx st (Ev.log (classifyFileMsg n (5 < countQA c))) with
    | (e1, st1, some m) => (e1, st1, Except.error m)
    | (e1, st1, none) =>
      let (e2, st2, r) := classifyLoop ctx rest (classifyStep n c K) st1
      (e1 ++ e2, st2, r)

def scanMsg : String := "开始扫描知识库目录: output/project/knowledge"

def foundMsg (n : Nat) : String :=
  ("发现 ") ++ toString n ++ (" 个文件，正在进行智能分类...")

def cacheDoneMsg (K : Corpus) : String :=
  ("内容缓存完成: QA对(") ++ toString K.qaPairs.length ++ ("), 文本块(") ++
    toString K.chunks.length ++ ("), 文档(") ++
    toString K.documents.length ++ (")")

/-- `classifyAndCacheKnowledgeContent`: the first log is outside the
`try`; the directory read, the file-count log and the per-file loop are
inside it, and any exception there is rethrown as the fatal directory
message; the final cache log is after the `try`. -/
def classifyTraced (ctx : Ctx) (fsys : FileSys) (st : EngineSt) :
    List Ev × EngineSt × Except String Corpus :=
  match onProgress ctx st (Ev.log scanMsg) with
  | (e1, st1, some m) => (e1, st1, Except.error m)
  | (e1, st1, none) =>
    let inner : List Ev × EngineSt × Except String Corpus :=
      match fsys with
      | Except.error m => ([], st1, Except.error m)
      | Except.ok files =>
        match onProgress ctx st1 (Ev.log (foundMsg files.length)) with
        | (e2, st2, some m) => (e2, st2, Except.error m)
        | (e2, st2, none) =>
          let (e3, st3, r) := classifyLoop ctx files emptyCorpus st2
          (e2 ++ e3, st3, r)
    match inner with
    | (e2, st2, Except.error m) =>
      (e1 ++ e2, st2, Except.error (fatalDirMsg m))
    | (e2, st2, Except.ok K) =>
      match onProgress ctx st2 (Ev.log (cacheDoneMsg K)) with
      | (e3, st3, some m) => (e1 ++ e2 ++ e3, st3, Except.error m)
      | (e3, st3, none) => (e1 ++ e2 ++ e3, st3, Except.ok K)

def totalMsg (T qa ch doc comp : Nat) : String :=
  ("任务总数计算完成: ") ++ toString T ++ (" (QA:") ++ toString qa ++
    (", 切块:") ++ toString ch ++ (", 文档:") ++ toString doc ++
    (", 综合:") ++ toString comp ++ (")")

/-- `runTask`: classify, plan (`totalTasks`, configuration error on 0),
then execute the four categories in order with cancellation checks at
the category boundaries. -/
def runTask (ctx : Ctx) (fsys : FileSys) (st : EngineSt) :
    List Ev × EngineSt × Option String :=
  match classifyTraced ctx fsys st with
  | (e1, st1, Except.error m) => (e1, st1, some m)
  | (e1, st1, Except.ok K) =>
    let tc := ctx.cfg.testConfig
    let T := totalTasksOf K tc
    if T = 0 then (e1, st1, some totalZeroMsg)
    else
      match onProgress ctx st1 (Ev.log (totalMsg T
          (K.qaPairs.length * tc.qaCount) (K.chunks.length * tc.chunkCount)
          (K.documents.length * tc.documentCount) tc.comprehensiveCount)) with
      | (e2, st2, some m) => (e1 ++ e2, st2, some m)
      | (e2, st2, none) =>
        match executeGenerationTask ctx K.documents T TaskType.QA
            ctx.cfg.project.qaSystemPrompt (K.qaPairs.map ContentItem.text)
            tc.qaCount st2 with
        | (e3, st3, some m) => (e1 ++ e2 ++ e3, st3, some m)
        | (e3, st3, none) =>
          let (p1, stp1, b1) := pollEv ctx st3
          if b1 then (e1 ++ e2 ++ e3 ++ p1, stp1, none)
          else
            match executeGenerationTask ctx K.documents T TaskType.Chunk
                ctx.cfg.project.chunkSystemPrompt
                (K.chunks.map ContentItem.text) tc.chunkCount stp1 with
            | (e4, st4, some m) => (e1 ++ e2 ++ e3 ++ p1 ++ e4, st4, some m)
            | (e4, st4, none) =>
              let (p2, stp2, b2) := pollEv ctx st4
              if b2 then (e1 ++ e2 ++ e3 ++ p1 ++ e4 ++ p2, stp2, none)
              else
                match executeGenerationTask ctx K.documents T
                    TaskType.Document ctx.cfg.project.documentSystemPrompt
                    (K.documents.map (fun d => ContentItem.doc d.1 d.2))
                    tc.documentCount stp2 with
                | (e5, st5, some m) =>
                  (e1 ++ e2 ++ e3 ++ p1 ++ e4 ++ p2 ++ e5, st5, some m)
                | (e5, st5, none) =>
                  let (p3, stp3, b3) := pollEv ctx st5
                  if b3 then
                    (e1 ++ e2 ++ e3 ++ p1 ++ e4 ++ p2 ++ e5 ++ p3, stp3, none)
                  else
                    let (e6, st6, ctl) := executeGenerationTask ctx
                      K.documents T TaskType.Comprehensive
                      ctx.cfg.project.comprehensiveSystemPrompt
                      (List.replicate tc.comprehensiveCount
                        (ContentItem.text ("N/A"))) 1 stp3
                    (e1 ++ e2 ++ e3 ++ p1 ++ e4 ++ p2 ++ e5 ++ p3 ++ e6,
                      st6, ctl)

def createdMsg : String := "结果目录已创建"

def cancelDoneMsg : String := "任务已被用户取消。"

/-- The `POST` stream body: create the base run directory, send the
creation log (unchecked `sendEvent`), run `runTask`, then emit `done`
when not aborted, or the `error` event from the `catch`. -/
def runPost (ctx : Ctx) (fsys : FileSys) : List Ev × EngineSt :=
  let (e1, st1) := emit EngineSt.init Ev.mkdirBase
  let (e2, st2) := emit st1 (Ev.log createdMsg)
  match runTask ctx fsys st2 with
  | (e3, st3, some m) =>
    let (e4, st4) :=
      emit st3 (Ev.errorEv (if m = cancelMsg then cancelDoneMsg else m))
    (e1 ++ e2 ++ e3 ++ e4, st4)
  | (e3, st3, none) =>
    let (p, st4, b) := pollEv ctx st3
    if b then (e1 ++ e2 ++ e3 ++ p, st4)
    else
      let (e5, st5) := emit st4 Ev.done
      (e1 ++ e2 ++ e3 ++ p ++ e5, st5)

/-! ## Trace projections -/

def isAttempt : Ev → Bool
  | Ev.attempt _ _ _ => true
  | _ => false

def isMkdirLoop : Ev → Bool
  | Ev.mkdirLoop _ => true
  | _ => false

def isWrite : Ev → Bool
  | Ev.writeResults _ => true
  | _ => false

def isPoll : Ev → Bool
  | Ev.poll _ => true
  | _ => false

def isPollTrue : Ev → Bool
  | Ev.poll true => true
  | _ => false

/-- Events forbidden after an observed cancellation: model attempts and
result-file writes. -/
def isAW (e : Ev) : Bool :=
  isAttempt e || isWrite e

/-- No attempt/write event occurs after a poll that observed
cancellation. -/
def noAWafter : List Ev → Bool
  | [] => true
  | Ev.poll true :: rest => rest.all (fun e => !(isAW e))
  | _ :: rest => noAWafter rest

def updatePairs (tr : List Ev) : List (Nat × Nat) :=
  tr.filterMap (fun e =>
    match e with
    | Ev.update _ c t => some (c, t)
    | _ => none)

def updateCurrs (tr : List Ev) : List Nat :=
  (updatePairs tr).map (fun p => p.1)

def writesOf (tr : List Ev) : List (List ResultEntry) :=
  tr.filterMap (fun e =>
    match e with
    | Ev.writeResults l => some l
    | _ => none)

/-- The successive full-list snapshots written to `results.json` when
entries are appended one at a time on top of `base`. -/
def snapshotsFrom (base : List ResultEntry) :
    List ResultEntry → List (List ResultEntry)
  | [] => []
  | e :: rest => (base ++ [e]) :: snapshotsFrom (base ++ [e]) rest

/-! ## Run-directory timestamps (`getTimestamp`) -/

/-- The `Date` accessor values read by `getTimestamp` (`month0` is the
0-based `getMonth()`). -/
structure DateParts where
  year : Nat
  month0 : Nat
  day : Nat
  hours : Nat
  minutes : Nat
  seconds : Nat
deriving Repr, DecidableEq

/-- `num.toString().padStart(2, '0')`. -/
def pad2 (n : Nat) : String :=
  let s := toString n
  if 2 ≤ s.length then s
  else String.mk (List.replicate (2 - s.length) '0') ++ s

/-- `now.getFullYear().toString().slice(-2)`. -/
def yearSlice (y : Nat) : String :=
  let s := toString y
  s.drop (s.length - 2)

/-- `getTimestamp`: `YYMMDD_HHMMSS`. -/
def getTimestamp (d : DateParts) : String :=
  yearSlice d.year ++ pad2 (d.month0 + 1) ++ pad2 d.day ++ ("_") ++
    pad2 d.hours ++ pad2 d.minutes ++ pad2 d.seconds

/-- The exclusive run directory derived from the start time. -/
def runDir (d : DateParts) : String :=
  ("output/result/") ++ getTimestamp d

/-! ## Lemmas about the retry wrapper -/

/-- An attempt outcome that triggers a retry: the call threw, or it
returned without textual string content. -/
def notOk : AttemptOutcome → Bool
  | AttemptOutcome.ok _ _ _ => false
  | _ => true

/-- The expected event trace of `n` attempts starting at attempt index
`i`: a fixed 2000 ms delay before every attempt after the first. -/
def attemptSeg (taskId : Nat) (msg : String) : Nat → Nat → List Ev
  | _, 0 => []
  | i, n + 1 =>
    (if 0 < i then [Ev.delay 2000] else []) ++
      [Ev.attempt taskId i msg] ++ attemptSeg taskId msg (i + 1) n

theorem safeGo_shape (oracle : Nat → AttemptOutcome) (taskId : Nat)
    (msg : String) (retries : Nat) :
    ∀ fuel i, ∃ n, n ≤ fuel ∧ (fuel = 0 → n = 0) ∧ (0 < fuel → 0 < n) ∧
      (safeGo oracle taskId msg retries fuel i).2 = attemptSeg taskId msg i n := by
  intro fuel
  induction fuel with
  | zero => intro i; exact ⟨0, by simp [safeGo, attemptSeg]⟩
  | succ f ih =>
    intro i
    cases h : oracle i with
    | ok c t d =>
      refine ⟨1, by omega, by omega, by omega, ?_⟩
      simp [safeGo, h, attemptSeg]
    | malformed =>
      by_cases hr : retries ≤ i
      · refine ⟨1, by omega, by omega, by omega, ?_⟩
        simp [safeGo, h, hr, attemptSeg]
      · obtain ⟨n, hn, _, _, hev⟩ := ih (i + 1)
        refine ⟨n + 1, by omega, by omega, by omega, ?_⟩
        simp [safeGo, h, hr, attemptSeg, hev]
    | err m =>
      by_cases hr : retries ≤ i
      · refine ⟨1, by omega, by omega, by omega, ?_⟩
        simp [safeGo, h, hr, attemptSeg]
      · obtain ⟨n, hn, _, _, hev⟩ := ih (i + 1)
        refine ⟨n + 1, by omega, by omega, by omega, ?_⟩
        simp [safeGo, h, hr, attemptSeg, hev]

theorem attemptSeg_mem (taskId : Nat) (msg : String) :
    ∀ n i e, e ∈ attemptSeg taskId msg i n →
      (∃ j, e = Ev.attempt taskId j msg) ∨ e = Ev.delay 2000 := by
  intro n
  induction n with
  | zero => intro i e h; simp [attemptSeg] at h
  | succ k ih =>
    intro i e h
    by_cases hi : 0 < i <;> simp [attemptSeg, hi] at h <;>
      rcases h with h | h
    · exact Or.inr h
    · rcases h with h | h
      · exact Or.inl ⟨i, h⟩
      · exact ih (i + 1) e h
    · exact Or.inl ⟨i, h⟩
    · exact ih (i + 1) e h

theorem attemptSeg_count (taskId : Nat) (msg : String) :
    ∀ n i, (attemptSeg taskId msg i n).countP (fun e => isAttempt e) = n := by
  intro n
  induction n with
  | zero => intro i; simp [attemptSeg]
  | succ k ih =>
    intro i
    by_cases h : 0 < i <;>
      simp [attemptSeg, h, List.countP_cons, isAttempt] <;>
      simpa [isAttempt] using ih (i + 1)

theorem attemptSeg_no_poll (taskId : Nat) (msg : String) :
    ∀ n i, (attemptSeg taskId msg i n).countP (fun e => isPoll e) = 0 := by
  intro n i
  rw [List.countP_eq_zero]
  intro e he
  rcases attemptSeg_mem taskId msg n i e he with ⟨j, rfl⟩ | rfl <;> simp [isPoll]

theorem safeGo_fail_result (oracle : Nat → AttemptOutcome) (taskId : Nat)
    (msg : String) (retries : Nat) :
    ∀ fuel i, (∀ j, i ≤ j → notOk (oracle j) = true) →
      (safeGo oracle taskId msg retries fuel i).1.success = false ∧
      ((safeGo oracle taskId msg retries fuel i).1.error).isSome = true := by
  intro fuel
  induction fuel with
  | zero => intro i _; simp [safeGo, mkFail]
  | succ f ih =>
    intro i hfail
    cases h : oracle i with
    | ok c t d => have := hfail i (Nat.le_refl i); simp [notOk, h] at this
    | malformed =>
      by_cases hr : retries ≤ i
      · simp [safeGo, h, hr, mkFail]
      · have := ih (i + 1) (fun j hj => hfail j (by omega))
        simp [safeGo, h, hr]
        exact this
    | err m =>
      by_cases hr : retries ≤ i
      · simp [safeGo, h, hr, mkFail]
      · have := ih (i + 1) (fun j hj => hfail j (by omega))
        simp [safeGo, h, hr]
        exact this

theorem safeGo_first_ok (oracle : Nat → AttemptOutcome) (taskId : Nat)
    (msg : String) (retries : Nat) :
    ∀ fuel i j c t d, i ≤ j → j < i + fuel → j ≤ retries →
      (∀ k, i ≤ k → k < j → notOk (oracle k) = true) →
      oracle j = AttemptOutcome.ok c t d →
      (safeGo oracle taskId msg retries fuel i).1 =
        ⟨true, some c, some t, some d, none⟩ := by
  intro fuel
  induction fuel with
  | zero => intro i j c t d _ h2 _ _ _; omega
  | succ f ih =>
    intro i j c t d h1 h2 h3 hfail hok
    by_cases hij : i = j
    · subst hij
      simp [safeGo, hok]
    · have hlt : i < j := by omega
      have hni : notOk (oracle i) = true := hfail i (Nat.le_refl i) hlt
      have hri : ¬ retries ≤ i := by omega
      cases h : oracle i with
      | ok c2 t2 d2 => simp [notOk, h] at hni
      | malformed =>
        have := ih (i + 1) j c t d (by omega) (by omega) h3
          (fun k hk1 hk2 => hfail k (by omega) hk2) hok
        simp [safeGo, h, hri, this]
      | err m =>
        have := ih (i + 1) j c t d (by omega) (by omega) h3
          (fun k hk1 hk2 => hfail k (by omega) hk2) hok
        simp [safeGo, h, hri, this]

theorem safeGo_fail_trace (oracle : Nat → AttemptOutcome) (taskId : Nat)
    (msg : String) (retries : Nat) :
    ∀ fuel i, (∀ j, i ≤ j → notOk (oracle j) = true) →
      fuel = retries + 1 - i → i ≤ retries →
      (safeGo oracle taskId msg retries fuel i).2 =
        attemptSeg taskId msg i (retries + 1 - i) := by
  intro fuel
  induction fuel with
  | zero => intro i _ hf hi; omega
  | succ f ih =>
    intro i hfail hf hi
    have hni : notOk (oracle i) = true := hfail i (Nat.le_refl i)
    cases h : oracle i with
    | ok c t d => simp [notOk, h] at hni
    | malformed =>
      by_cases hr : retries ≤ i
      · have : retries + 1 - i = 1 := by omega
        simp [safeGo, h, hr, this, attemptSeg]
      · have hrec := ih (i + 1) (fun j hj => hfail j (by omega)) (by omega)
          (by omega)
        have : retries + 1 - i = (retries + 1 - (i + 1)) + 1 := by omega
        rw [this]
        simp [safeGo, h, hr, attemptSeg, hrec]
    | err m =>
      by_cases hr : retries ≤ i
      · have : retries + 1 - i = 1 := by omega
        simp [safeGo, h, hr, this, attemptSeg]
      · have hrec := ih (i + 1) (fun j hj => hfail j (by omega)) (by omega)
          (by omega)
        have : retries + 1 - i = (retries + 1 - (i + 1)) + 1 := by omega
        rw [this]
        simp [safeGo, h, hr, attemptSeg, hrec]

/-- C2: the Model Invoker attempts the underlying chat call at most
`retries + 1` times, with a fixed 2000 ms delay before every attempt
after the first; an attempt is retried when it throws or returns without
textual string content; a call that always fails produces, with the
default `retries = 2`, exactly 3 attempts with a 2000 ms pause before the
2nd and the 3rd and yields `{success: false, error: message}`; a
succeeding attempt yields
`{success: true, content, tokenUsage, durationUsage}`. -/
theorem claim2_model_invoker_retries (oracle : Nat → AttemptOutcome)
    (taskId : Nat) (msg : String) :
    (∀ retries, ∃ n, 1 ≤ n ∧ n ≤ retries + 1 ∧
      (safeModelCall oracle taskId msg retries).2 = attemptSeg taskId msg 0 n ∧
      (safeModelCall oracle taskId msg retries).2.countP
        (fun e => isAttempt e) = n) ∧
    ((∀ j, notOk (oracle j) = true) →
      (safeModelCall oracle taskId msg 2).1.success = false ∧
      ((safeModelCall oracle taskId msg 2).1.error).isSome = true ∧
      (safeModelCall oracle taskId msg 2).2 =
        [Ev.attempt taskId 0 msg, Ev.delay 2000, Ev.attempt taskId 1 msg,
         Ev.delay 2000, Ev.attempt taskId 2 msg]) ∧
    (∀ j c t d retries, j ≤ retries →
      (∀ k, k < j → notOk (oracle k) = true) →
      oracle j = AttemptOutcome.ok c t d →
      (safeModelCall oracle taskId msg retries).1 =
        ⟨true, some c, some t, some d, none⟩) := by
  refine ⟨?_, ?_, ?_⟩
  · intro retries
    obtain ⟨n, h1, _, h3, h4⟩ :=
      safeGo_shape oracle taskId msg retries (retries + 1) 0
    refine ⟨n, h3 (by omega), h1, h4, ?_⟩
    show List.countP (fun e => isAttempt e)
      (safeGo oracle taskId msg retries (retries + 1) 0).2 = n
    rw [h4, attemptSeg_count]
  · intro hfail
    refine ⟨(safeGo_fail_result oracle taskId msg 2 3 0
        (fun j _ => hfail j)).1,
      (safeGo_fail_result oracle taskId msg 2 3 0 (fun j _ => hfail j)).2, ?_⟩
    have := safeGo_fail_trace oracle taskId msg 2 3 0
      (fun j _ => hfail j) (by omega) (by omega)
    rw [safeModelCall, this]
    simp [attemptSeg]
  · intro j c t d retries hj hfail hok
    exact safeGo_first_ok oracle taskId msg retries (retries + 1) 0 j c t d
      (by omega) (by omega) hj (fun k _ hk => hfail k hk) hok

/-- Witness for C2 at an always-throwing oracle and at a
first-attempt-success oracle. -/
theorem claim2_model_invoker_retries_witness :
    (safeModelCall (fun _ => AttemptOutcome.err ("boom")) 7 ("m") 2).1.success
        = false ∧
    (safeModelCall (fun _ => AttemptOutcome.err ("boom")) 7 ("m") 2).2 =
      [Ev.attempt 7 0 ("m"), Ev.delay 2000, Ev.attempt 7 1 ("m"),
       Ev.delay 2000, Ev.attempt 7 2 ("m")] ∧
    (safeModelCall (fun _ => AttemptOutcome.ok ("hi") ⟨3, 1, 2⟩ ⟨9, 0, 4, 5⟩)
        5 ("m") 2).1 = ⟨true, some ("hi"), some ⟨3, 1, 2⟩, some ⟨9, 0, 4, 5⟩,
        none⟩ := by
  have h := claim2_model_invoker_retries
    (fun _ => AttemptOutcome.err ("boom")) 7 ("m")
  have h2 := claim2_model_invoker_retries
    (fun _ => AttemptOutcome.ok ("hi") ⟨3, 1, 2⟩ ⟨9, 0, 4, 5⟩) 5 ("m")
  exact ⟨(h.2.1 (fun j => rfl)).1, (h.2.1 (fun j => rfl)).2.2,
    h2.2.2 0 ("hi") ⟨3, 1, 2⟩ ⟨9, 0, 4, 5⟩ 2 (by omega)
      (fun k hk => absurd hk (by omega)) rfl⟩

/-! ## Classification of concrete files -/

/-- A file made of six strict `Q:`/`A:` pair blocks. -/
def sixPairFile : String :=
  "Q: a1\nA: b1\n\nQ: a2\nA: b2\n\nQ: a3\nA: b3\n\nQ: a4\nA: b4\n\nQ: a5\nA: b5\n\nQ: a6\nA: b6"

/-- A file with three `Q:`/`A:` pairs and one extra paragraph
(four blank-line-delimited paragraphs in total). -/
def threePairFile : String :=
  "intro paragraph\n\nQ: a1\nA: b1\n\nQ: a2\nA: b2\n\nQ: a3\nA: b3"

/-- C3: a scanned file with more than 5 strict `Q:`/`A:` paragraph-pair
matches contributes exactly its non-empty blank-line-delimited blocks as
QA pairs and nothing to the documents or chunks; any other file
contributes exactly one document (name and full text) plus its non-empty
blank-line-delimited paragraphs as chunks and nothing to the QA
collection.  A six-pair file counts 6 matches and yields 6 QA-pair items;
a three-pair file counts 3 matches and yields 1 document plus its 4
paragraphs as chunks. -/
theorem claim3_classification (fileName content : String) (K : Corpus) :
    (5 < countQA content →
      classifyStep fileName content K =
        ⟨K.qaPairs ++ blocksOf content, K.chunks, K.documents⟩) ∧
    (¬ 5 < countQA content →
      classifyStep fileName content K =
        ⟨K.qaPairs, K.chunks ++ blocksOf content,
         K.documents ++ [(fileName, content)]⟩) ∧
    countQA sixPairFile = 6 ∧
    (blocksOf sixPairFile).length = 6 ∧
    classifyStep fileName sixPairFile emptyCorpus =
      ⟨blocksOf sixPairFile, [], []⟩ ∧
    countQA threePairFile = 3 ∧
    (blocksOf threePairFile).length = 4 ∧
    classifyStep fileName threePairFile emptyCorpus =
      ⟨[], blocksOf threePairFile, [(fileName, threePairFile)]⟩ := by
  have h6 : 5 < countQA sixPairFile := by decide
  have h3 : ¬ 5 < countQA threePairFile := by decide
  refine ⟨fun h => by simp [classifyStep, h],
    fun h => by simp [classifyStep, h], by decide, by decide,
    by simp [classifyStep, h6, emptyCorpus],
    by decide, by decide,
    by simp [classifyStep, h3, emptyCorpus]⟩

/-- Witness for C3: the two classification branches at the two concrete
files. -/
theorem claim3_classification_witness :
    classifyStep ("f.txt") sixPairFile emptyCorpus =
      ⟨emptyCorpus.qaPairs ++ blocksOf sixPairFile, emptyCorpus.chunks,
       emptyCorpus.documents⟩ ∧
    classifyStep ("g.txt") threePairFile emptyCorpus =
      ⟨emptyCorpus.qaPairs, emptyCorpus.chunks ++ blocksOf threePairFile,
       emptyCorpus.documents ++ [(("g.txt"), threePairFile)]⟩ := by
  have h1 := claim3_classification ("f.txt") sixPairFile emptyCorpus
  have h2 := claim3_classification ("g.txt") threePairFile emptyCorpus
  exact ⟨h1.1 (by decide), h2.2.1 (by decide)⟩

/-! ## Run-directory collisions -/

theorem string_data_append (a b : String) : (a ++ b).data = a.data ++ b.data := by
  cases a; cases b; rfl

theorem string_append_cancel_left {a x y : String} (h : a ++ x = a ++ y) :
    x = y := by
  have hd : a.data ++ x.data = a.data ++ y.data := by
    rw [← string_data_append, ← string_data_append, h]
  have hxy : x.data = y.data := List.append_cancel_left hd
  cases x; cases y
  exact congrArg String.mk (by simpa using hxy)

theorem pad2_inj_lt60 : ∀ a ∈ List.range 60, ∀ b ∈ List.range 60,
    pad2 a = pad2 b → a = b := by decide

/-- C10 counterexample: two runs whose start times agree at second
resolution receive the very same run directory — `getTimestamp` is a
function of the six second-resolution time fields only (it contains no
counter), so the directories are not distinct as the claim requires. -/
theorem claim10_counterexample :
    getTimestamp ⟨2025, 9, 12, 9, 30, 0⟩ = "251012_093000" ∧
    runDir ⟨2025, 9, 12, 9, 30, 0⟩ = runDir ⟨2025, 9, 12, 9, 30, 0⟩ ∧
    ¬ (runDir ⟨2025, 9, 12, 9, 30, 0⟩ ≠ runDir ⟨2025, 9, 12, 9, 30, 0⟩) :=
  ⟨by decide, rfl, fun h => h rfl⟩

/-- C10 amended: run directories are keyed by the second-resolution
timestamp alone, with no disambiguating counter: two runs started in
the same second collide (same directory), while two starts that differ
only in the (in-range) seconds field do get distinct directories. -/
theorem claim10_timestamp_dirs :
    (∀ t1 t2 : DateParts, t1.year = t2.year → t1.month0 = t2.month0 →
      t1.day = t2.day → t1.hours = t2.hours → t1.minutes = t2.minutes →
      t1.seconds = t2.seconds → runDir t1 = runDir t2) ∧
    (∀ t1 t2 : DateParts, t1.year = t2.year → t1.month0 = t2.month0 →
      t1.day = t2.day → t1.hours = t2.hours → t1.minutes = t2.minutes →
      t1.seconds < 60 → t2.seconds < 60 → t1.seconds ≠ t2.seconds →
      runDir t1 ≠ runDir t2) := by
  constructor
  · intro t1 t2 h1 h2 h3 h4 h5 h6
    cases t1; cases t2
    simp_all
  · intro t1 t2 h1 h2 h3 h4 h5 hs1 hs2 hne heq
    apply hne
    apply pad2_inj_lt60 t1.seconds (by simp [List.mem_range, hs1])
      t2.seconds (by simp [List.mem_range, hs2])
    have heq2 : (("output/result/") ++ (yearSlice t1.year ++
        pad2 (t1.month0 + 1) ++ pad2 t1.day ++ ("_") ++ pad2 t1.hours ++
        pad2 t1.minutes)) ++ pad2 t1.seconds =
        (("output/result/") ++ (yearSlice t2.year ++ pad2 (t2.month0 + 1) ++
        pad2 t2.day ++ ("_") ++ pad2 t2.hours ++ pad2 t2.minutes)) ++
        pad2 t2.seconds := by
      rw [runDir, runDir, getTimestamp, getTimestamp] at heq
      simpa [String.append_assoc] using heq
    rw [h1, h2, h3, h4, h5] at heq2
    exact string_append_cancel_left heq2

/-- Witness for C10's amended statement: a same-second collision and a
seconds-apart separation, both at concrete start times. -/
theorem claim10_timestamp_dirs_witness :
    runDir ⟨2025, 9, 12, 9, 30, 0⟩ = runDir ⟨2025, 9, 12, 9, 30, 0⟩ ∧
    runDir ⟨2025, 9, 12, 9, 30, 0⟩ ≠ runDir ⟨2025, 9, 12, 9, 30, 1⟩ := by
  have h := claim10_timestamp_dirs
  exact ⟨h.1 ⟨2025, 9, 12, 9, 30, 0⟩ ⟨2025, 9, 12, 9, 30, 0⟩ rfl rfl rfl rfl
      rfl rfl,
    h.2 ⟨2025, 9, 12, 9, 30, 0⟩ ⟨2025, 9, 12, 9, 30, 1⟩ rfl rfl rfl rfl rfl
      (by decide) (by decide) (by decide)⟩

/-! ## Output parsing -/

/-- A model response that is valid JSON but misses the `answer` field. -/
def missingAnswerJson : String := "\x7b\"question\": \"q1\"\x7d"

/-- C7 counterexample: on a response that is valid JSON with a `question`
but no `answer`, the engine keeps the parsed question and substitutes the
field-specific missing-`answer` marker — the raw text is *not* preserved
as the answer and the question is *not* the parse-failure marker, against
the claim's description of the missing-fields case. -/
theorem claim7_counterexample :
    parseGenerated missingAnswerJson =
      (JVal.jstr ("q1"), JVal.jstr aMarker) ∧
    ¬ ((parseGenerated missingAnswerJson).2 = JVal.jstr missingAnswerJson) ∧
    ¬ ((parseGenerated missingAnswerJson).1 = JVal.jstr parseFailMarker) := by
  refine ⟨rfl, fun h => ?_, fun h => ?_⟩
  · rw [show (parseGenerated missingAnswerJson).2 = JVal.jstr aMarker
      from rfl] at h
    exact absurd (JVal.jstr.inj h) (by decide)
  · rw [show (parseGenerated missingAnswerJson).1 = JVal.jstr ("q1")
      from rfl] at h
    exact absurd (JVal.jstr.inj h) (by decide)

/-- C7 amended: on a successful invocation the content is parsed as JSON
(fenced block first, else the whole content); when the parse throws
(invalid JSON, or a parsed `null` whose member access throws) the raw
text is kept as the answer under the parse-failure question marker; when
the parse yields a value, missing or falsy `question`/`answer` members
are replaced by field-specific missing markers (the raw text is not
preserved then); either way the task's ResultEntry is still appended and
persisted and the run continues with the next task. -/
theorem claim7_output_parsing (s : String) :
    ((jsonParse (effectiveJson s) = none ∨
      jsonParse (effectiveJson s) = some JVal.null) →
      parseGenerated s = (JVal.jstr parseFailMarker, JVal.jstr s)) ∧
    (∀ v, jsonParse (effectiveJson s) = some v → v ≠ JVal.null →
      parseGenerated s =
        (jsOr (jGet v ("question")) (JVal.jstr qMarker),
         jsOr (jGet v ("answer")) (JVal.jstr aMarker))) ∧
    (∀ ctx docs T tt len loop i st tu du item,
      ctx.cancelAt = none →
      ctx.oracle (st.currentTask + 1) 0 = AttemptOutcome.ok s tu du →
      s ≠ "" →
      (execItems ctx docs T tt len loop [item] i st).2.2 = none ∧
      (execItems ctx docs T tt len loop [item] i st).2.1.allResults =
        st.allResults ++
          [⟨st.currentTask + 1, tt, (parseGenerated s).1,
            (parseGenerated s).2, 10⟩] ∧
      writesOf (execItems ctx docs T tt len loop [item] i st).1 =
        [(execItems ctx docs T tt len loop [item] i st).2.1.allResults]) := by
  refine ⟨fun h => ?_, fun v hv hvn => ?_, ?_⟩
  · rcases h with h | h
    · simp [parseGenerated, h]
    · simp [parseGenerated, h]
  · cases v <;> first
      | (simp [parseGenerated, hv]; simp_all)
      | simp [parseGenerated, hv]
  · intro ctx docs T tt len loop i st tu du item hc horacle hs
    have hred : execItems ctx docs T tt len loop [item] i st =
        ([Ev.poll false, Ev.poll false,
          Ev.update (("[") ++ tt.render ++ ("] ") ++ toString (i + 1) ++
            ("/") ++ toString len ++ (" (第") ++ toString loop ++ ("轮)"))
            (st.currentTask + 1) T,
          Ev.attempt (st.currentTask + 1) 0
            (taskSourceAndMsg tt docs loop i item).2,
          Ev.poll false,
          Ev.tokenUse (st.totalTokenUsage + tu.total_tokens),
          Ev.appendLog loop, Ev.poll false,
          Ev.stateUpdate (taskSourceAndMsg tt docs loop i item).1
            (parseGenerated s).1 (parseGenerated s).2,
          Ev.writeResults (st.allResults ++
            [⟨st.currentTask + 1, tt, (parseGenerated s).1,
              (parseGenerated s).2, 10⟩])],
         ({ st with
            time := st.time + 10
            currentTask := st.currentTask + 1
            totalTokenUsage := st.totalTokenUsage + tu.total_tokens
            allResults := st.allResults ++
              [⟨st.currentTask + 1, tt, (parseGenerated s).1,
                (parseGenerated s).2, 10⟩] } : EngineSt), none) := by
      simp [execItems, pollEv, onProgress, cancelledAt, hc, safeModelCall,
        safeGo, emit, bump, horacle, questionAnswerOf, hs]
    rw [hred]
    simp [writesOf]

/-- Witness for C7: an invalid-JSON response keeps the raw text as the
answer, and one engine step on a missing-`answer` response still appends
its ResultEntry. -/
theorem claim7_output_parsing_witness :
    parseGenerated ("garbage") =
      (JVal.jstr parseFailMarker, JVal.jstr ("garbage")) ∧
    (execItems ⟨none,
        fun _ _ => AttemptOutcome.ok missingAnswerJson ⟨3, 1, 2⟩ ⟨0, 0, 0, 0⟩,
        ⟨⟨0, 0, 0, 0⟩, ⟨("m"), ("x"), ("x"), ("x"), ("x")⟩⟩⟩ [] 5
        TaskType.QA 1 1 [ContentItem.text ("hi")] 0
        EngineSt.init).2.1.allResults =
      EngineSt.init.allResults ++
        [⟨EngineSt.init.currentTask + 1, TaskType.QA,
          (parseGenerated missingAnswerJson).1,
          (parseGenerated missingAnswerJson).2, 10⟩] := by
  have h1 := (claim7_output_parsing ("garbage")).1 (Or.inl rfl)
  have h2 := (claim7_output_parsing missingAnswerJson).2.2
    ⟨none, fun _ _ => AttemptOutcome.ok missingAnswerJson ⟨3, 1, 2⟩
        ⟨0, 0, 0, 0⟩,
      ⟨⟨0, 0, 0, 0⟩, ⟨("m"), ("x"), ("x"), ("x"), ("x")⟩⟩⟩ [] 5
    TaskType.QA 1 1 0 EngineSt.init ⟨3, 1, 2⟩ ⟨0, 0, 0, 0⟩
    (ContentItem.text ("hi")) rfl rfl (by decide)
  exact ⟨h1, h2.2.1⟩

/-! ## Lemmas about the traced knowledge scan -/

/-- Events the scan may emit: logs and cancellation polls only. -/
def isBenign (e : Ev) : Bool :=
  match e with
  | Ev.log _ => true
  | Ev.poll _ => true
  | _ => false

@[simp] theorem bump_time (st : EngineSt) (n : Nat) :
    (bump st n).time = st.time + n := rfl

@[simp] theorem bump_currentTask (st : EngineSt) (n : Nat) :
    (bump st n).currentTask = st.currentTask := rfl

@[simp] theorem bump_totalTokenUsage (st : EngineSt) (n : Nat) :
    (bump st n).totalTokenUsage = st.totalTokenUsage := rfl

@[simp] theorem bump_allResults (st : EngineSt) (n : Nat) :
    (bump st n).allResults = st.allResults := rfl

/-- The two possible outcomes of the checked progress emitter. -/
theorem onProgress_cases (ctx : Ctx) (st : EngineSt) (e : Ev) :
    onProgress ctx st e = ([Ev.poll true], bump st 1, some cancelMsg) ∨
    onProgress ctx st e = ([Ev.poll false, e], bump st 2, none) := by
  unfold onProgress
  by_cases h : cancelledAt ctx.cancelAt st.time = true <;> simp [h]

theorem classifyLoop_benign (ctx : Ctx) :
    ∀ files K st, (classifyLoop ctx files K st).1.all isBenign = true ∧
      (classifyLoop ctx files K st).2.1.allResults = st.allResults ∧
      (classifyLoop ctx files K st).2.1.currentTask = st.currentTask := by
  intro files
  induction files with
  | nil => intro K st; simp [classifyLoop]
  | cons f rest ih =>
    intro K st
    rcases f with ⟨n, c⟩
    cases c with
    | error m => simp [classifyLoop]
    | ok content =>
      rcases onProgress_cases ctx st
          (Ev.log (classifyFileMsg n (5 < countQA content))) with h | h
      · simp [classifyLoop, h, isBenign]
      · have hr := ih (classifyStep n content K) (bump st 2)
        rcases hloop : classifyLoop ctx rest (classifyStep n content K)
          (bump st 2) with ⟨e2, st2, r⟩
        rw [hloop] at hr
        simp only at hr
        simp [classifyLoop, h, hloop, isBenign, hr.1, hr.2.1, hr.2.2]

theorem classifyTraced_benign (ctx : Ctx) (fsys : FileSys) (st : EngineSt) :
    (classifyTraced ctx fsys st).1.all isBenign = true ∧
    (classifyTraced ctx fsys st).2.1.allResults = st.allResults ∧
    (classifyTraced ctx fsys st).2.1.currentTask = st.currentTask := by
  rcases onProgress_cases ctx st (Ev.log scanMsg) with h1 | h1
  · simp [classifyTraced, h1, isBenign]
  · cases fsys with
    | error m => simp [classifyTraced, h1, isBenign]
    | ok files =>
      rcases onProgress_cases ctx (bump st 2)
          (Ev.log (foundMsg files.length)) with h2 | h2
      · simp [classifyTraced, h1, h2, isBenign]
      · have hl := classifyLoop_benign ctx files emptyCorpus (bump (bump st 2) 2)
        rcases hloop : classifyLoop ctx files emptyCorpus (bump (bump st 2) 2)
          with ⟨e3, st3, r⟩
        rw [hloop] at hl
        simp only [bump_allResults, bump_currentTask] at hl
        cases r with
        | error m =>
          simp [classifyTraced, h1, h2, hloop, isBenign, hl.1, hl.2.1, hl.2.2]
        | ok K =>
          rcases onProgress_cases ctx st3 (Ev.log (cacheDoneMsg K)) with h3 | h3 <;>
            simp [classifyTraced, h1, h2, hloop, h3, isBenign, hl.1, hl.2.1,
              hl.2.2]

theorem classifyLoop_none (ctx : Ctx) (hc : ctx.cancelAt = none) :
    ∀ files K st,
      (classifyLoop ctx files K st).2.2 = classifyPureGo files K := by
  intro files
  induction files with
  | nil => intro K st; simp [classifyLoop, classifyPureGo]
  | cons f rest ih =>
    intro K st
    rcases f with ⟨n, c⟩
    cases c with
    | error m => simp [classifyLoop, classifyPureGo]
    | ok content =>
      simp [classifyLoop, classifyPureGo, onProgress, cancelledAt, hc, ih]

theorem classifyTraced_none (ctx : Ctx) (fsys : FileSys) (st : EngineSt)
    (hc : ctx.cancelAt = none) :
    (classifyTraced ctx fsys st).2.2 = classifyPure fsys := by
  cases fsys with
  | error m => simp [classifyTraced, classifyPure, onProgress, cancelledAt, hc]
  | ok files =>
    have hl := classifyLoop_none ctx hc files emptyCorpus (bump (bump st 2) 2)
    rcases hloop : classifyLoop ctx files emptyCorpus (bump (bump st 2) 2)
      with ⟨e3, st3, r⟩
    rw [hloop] at hl
    simp only at hl
    cases r with
    | error m =>
      simp [classifyTraced, classifyPure, onProgress, cancelledAt, hc, hloop,
        ← hl]
    | ok K =>
      simp [classifyTraced, classifyPure, onProgress, cancelledAt, hc, hloop,
        ← hl]

theorem benign_counts (evs : List Ev) (h : evs.all isBenign = true) :
    evs.countP (fun e => isAttempt e) = 0 ∧
    evs.countP (fun e => isMkdirLoop e) = 0 ∧
    evs.countP (fun e => isWrite e) = 0 := by
  rw [List.all_eq_true] at h
  refine ⟨?_, ?_, ?_⟩ <;> rw [List.countP_eq_zero] <;> intro e he <;>
    have hb := h e he <;> cases e <;> simp_all [isBenign, isAttempt,
      isMkdirLoop, isWrite]

theorem runTask_classify_error (ctx : Ctx) (fsys : FileSys) (st : EngineSt)
    (e1 : List Ev) (st1 : EngineSt) (m : String)
    (h : classifyTraced ctx fsys st = (e1, st1, Except.error m)) :
    runTask ctx fsys st = (e1, st1, some m) := by
  simp [runTask, h]

theorem runTask_total_zero (ctx : Ctx) (fsys : FileSys) (st : EngineSt)
    (e1 : List Ev) (st1 : EngineSt) (K : Corpus)
    (h : classifyTraced ctx fsys st = (e1, st1, Except.ok K))
    (htot : totalTasksOf K ctx.cfg.testConfig = 0) :
    runTask ctx fsys st = (e1, st1, some totalZeroMsg) := by
  simp [runTask, h, htot]

/-- The state handed to `runTask` by the `POST` wrapper. -/
def stStart : EngineSt := ⟨2, 0, 0, []⟩

theorem runPost_of_runTask_error (ctx : Ctx) (fsys : FileSys) (e3 : List Ev)
    (st3 : EngineSt) (m : String) (hm : ¬ m = cancelMsg)
    (h : runTask ctx fsys stStart = (e3, st3, some m)) :
    runPost ctx fsys =
      (Ev.mkdirBase :: Ev.log createdMsg :: (e3 ++ [Ev.errorEv m]),
       bump st3 1) := by
  have hst : bump (bump EngineSt.init 1) 1 = stStart := by
    simp [EngineSt.init, bump, stStart]
  simp [runPost, emit, hst, h, hm]

theorem runPost_of_runTask_ok_cancelled (ctx : Ctx) (fsys : FileSys)
    (e3 : List Ev) (st3 : EngineSt)
    (hb : cancelledAt ctx.cancelAt st3.time = true)
    (h : runTask ctx fsys stStart = (e3, st3, none)) :
    runPost ctx fsys =
      (Ev.mkdirBase :: Ev.log createdMsg :: (e3 ++ [Ev.poll true]),
       bump st3 1) := by
  have hst : bump (bump EngineSt.init 1) 1 = stStart := by
    simp [EngineSt.init, bump, stStart]
  simp [runPost, emit, hst, h, pollEv, hb]

theorem runPost_of_runTask_ok (ctx : Ctx) (fsys : FileSys)
    (e3 : List Ev) (st3 : EngineSt)
    (hb : cancelledAt ctx.cancelAt st3.time = false)
    (h : runTask ctx fsys stStart = (e3, st3, none)) :
    runPost ctx fsys =
      (Ev.mkdirBase :: Ev.log createdMsg ::
        (e3 ++ [Ev.poll false, Ev.done]), bump (bump st3 1) 1) := by
  have hst : bump (bump EngineSt.init 1) 1 = stStart := by
    simp [EngineSt.init, bump, stStart]
  simp [runPost, emit, hst, h, pollEv, hb]

theorem fatalDirMsg_ne_cancel (m : String) : ¬ fatalDirMsg m = cancelMsg := by
  intro h
  have hd : (fatalDirMsg m).data.head? = some '无' := by
    rw [show fatalDirMsg m =
      ("无法读取知识库目录: output/project/knowledge。请确认文件已上传。错误: ") ++ m
      from rfl, string_data_append]
    rfl
  rw [h] at hd
  exact absurd hd (by decide)

theorem totalZeroMsg_ne_cancel : ¬ totalZeroMsg = cancelMsg := by decide

/-! ## C1: task planning -/

/-- C1: over a classified corpus the planned `totalTasks` is exactly
`|qaPairs|*qaCount + |chunks|*chunkCount + |documents|*documentCount +
comprehensiveCount`, and when this sum is 0 the run fails with the
configuration-error event before any model attempt, before any loop
directory beyond the base run directory is created, and before any
result write. -/
theorem claim1_task_planning (ctx : Ctx) (fsys : FileSys) (K : Corpus)
    (hc : ctx.cancelAt = none) (hK : classifyPure fsys = Except.ok K) :
    totalTasksOf K ctx.cfg.testConfig =
      K.qaPairs.length * ctx.cfg.testConfig.qaCount +
      K.chunks.length * ctx.cfg.testConfig.chunkCount +
      K.documents.length * ctx.cfg.testConfig.documentCount +
      ctx.cfg.testConfig.comprehensiveCount ∧
    (totalTasksOf K ctx.cfg.testConfig = 0 →
      (runPost ctx fsys).1.countP (fun e => isAttempt e) = 0 ∧
      (runPost ctx fsys).1.countP (fun e => isMkdirLoop e) = 0 ∧
      (runPost ctx fsys).1.countP (fun e => isWrite e) = 0 ∧
      (runPost ctx fsys).1.getLast? = some (Ev.errorEv totalZeroMsg)) := by
  refine ⟨rfl, fun htot => ?_⟩
  have hr := classifyTraced_none ctx fsys stStart hc
  have hb := classifyTraced_benign ctx fsys stStart
  rcases hct : classifyTraced ctx fsys stStart with ⟨e1, st1, r⟩
  rw [hct] at hr hb
  simp only at hr hb
  rw [hK] at hr
  subst hr
  have hrt := runTask_total_zero ctx fsys stStart e1 st1 K hct htot
  have hrp := runPost_of_runTask_error ctx fsys e1 st1 totalZeroMsg
    totalZeroMsg_ne_cancel hrt
  rw [hrp]
  have hcnt := benign_counts e1 hb.1
  refine ⟨?_, ?_, ?_, ?_⟩
  · simp only [List.countP_cons, List.countP_append, hcnt.1]
    decide
  · simp only [List.countP_cons, List.countP_append, hcnt.2.1]
    decide
  · simp only [List.countP_cons, List.countP_append, hcnt.2.2]
    decide
  · rw [show Ev.mkdirBase :: Ev.log createdMsg ::
      (e1 ++ [Ev.errorEv totalZeroMsg]) =
      (Ev.mkdirBase :: Ev.log createdMsg :: e1) ++ [Ev.errorEv totalZeroMsg]
      from by simp]
    exact List.getLast?_concat _

/-- Witness for C1: an empty knowledge directory with all counts zero. -/
theorem claim1_task_planning_witness :
    totalTasksOf emptyCorpus (⟨0, 0, 0, 0⟩ : TestConfig) = 0 ∧
    (runPost ⟨none, fun _ _ => AttemptOutcome.malformed,
        ⟨⟨0, 0, 0, 0⟩, ⟨("m"), ("x"), ("x"), ("x"), ("x")⟩⟩⟩
      (Except.ok [])).1.countP (fun e => isAttempt e) = 0 ∧
    (runPost ⟨none, fun _ _ => AttemptOutcome.malformed,
        ⟨⟨0, 0, 0, 0⟩, ⟨("m"), ("x"), ("x"), ("x"), ("x")⟩⟩⟩
      (Except.ok [])).1.getLast? = some (Ev.errorEv totalZeroMsg) := by
  have h := claim1_task_planning
    ⟨none, fun _ _ => AttemptOutcome.malformed,
      ⟨⟨0, 0, 0, 0⟩, ⟨("m"), ("x"), ("x"), ("x"), ("x")⟩⟩⟩
    (Except.ok []) emptyCorpus rfl rfl
  exact ⟨rfl, (h.2 rfl).1, (h.2 rfl).2.2.2⟩

/-! ## C9: scan failure handling -/

theorem classifyPureGo_error :
    ∀ (pre : List (String × String)) (K : Corpus) (n m : String)
      (post : List (String × Except String String)),
      classifyPureGo
        (pre.map (fun p => (p.1, Except.ok p.2)) ++
          (n, Except.error m) :: post) K = Except.error m := by
  intro pre
  induction pre with
  | nil => intro K n m post; simp [classifyPureGo]
  | cons p rest ih =>
    intro K n m post
    simp [classifyPureGo, ih]

/-- C9 counterexample: a knowledge directory whose listing succeeds but
in which one single file read fails.  The scan is not "logged and
skipped": the whole run aborts with the fatal directory message and
attempts nothing, even though the remaining file is readable — the same
run without the unreadable file performs its model attempts. -/
theorem claim9_counterexample :
    (runPost ⟨none, fun _ _ => AttemptOutcome.err ("boom"),
        ⟨⟨0, 0, 1, 0⟩, ⟨("m"), ("x"), ("x"), ("p"), ("x")⟩⟩⟩
      (Except.ok [(("bad.txt"), Except.error ("EACCES")),
        (("good.txt"), Except.ok ("Hello"))])).1.countP
        (fun e => isAttempt e) = 0 ∧
    (runPost ⟨none, fun _ _ => AttemptOutcome.err ("boom"),
        ⟨⟨0, 0, 1, 0⟩, ⟨("m"), ("x"), ("x"), ("p"), ("x")⟩⟩⟩
      (Except.ok [(("bad.txt"), Except.error ("EACCES")),
        (("good.txt"), Except.ok ("Hello"))])).1.getLast? =
      some (Ev.errorEv (fatalDirMsg ("EACCES"))) ∧
    (runPost ⟨none, fun _ _ => AttemptOutcome.err ("boom"),
        ⟨⟨0, 0, 1, 0⟩, ⟨("m"), ("x"), ("x"), ("p"), ("x")⟩⟩⟩
      (Except.ok [(("good.txt"), Except.ok ("Hello"))])).1.countP
        (fun e => isAttempt e) = 3 := by
  refine ⟨by decide, by rfl, by decide⟩

/-- C9 amended: a failure to read one individual file during the scan is
not skipped: it aborts the whole run with the same fatal
knowledge-directory error as an unreadable directory, before any task
executes (no attempts, no result writes, empty result list). -/
theorem claim9_scan_failures (ctx : Ctx) (hc : ctx.cancelAt = none) :
    (∀ (pre : List (String × String)) (n m : String)
      (post : List (String × Except String String)),
      classifyPure (Except.ok (pre.map (fun p => (p.1, Except.ok p.2)) ++
        (n, Except.error m) :: post)) = Except.error (fatalDirMsg m)) ∧
    (∀ m, classifyPure (Except.error m) = Except.error (fatalDirMsg m)) ∧
    (∀ fsys m, classifyPure fsys = Except.error (fatalDirMsg m) →
      (runPost ctx fsys).1.countP (fun e => isAttempt e) = 0 ∧
      (runPost ctx fsys).1.countP (fun e => isWrite e) = 0 ∧
      (runPost ctx fsys).1.getLast? = some (Ev.errorEv (fatalDirMsg m)) ∧
      (runPost ctx fsys).2.allResults = []) := by
  refine ⟨?_, ?_, ?_⟩
  · intro pre n m post
    simp [classifyPure, classifyPureGo_error]
  · intro m
    simp [classifyPure]
  · intro fsys m herr
    have hr := classifyTraced_none ctx fsys stStart hc
    have hb := classifyTraced_benign ctx fsys stStart
    rcases hct : classifyTraced ctx fsys stStart with ⟨e1, st1, r⟩
    rw [hct] at hr hb
    simp only at hr hb
    rw [herr] at hr
    subst hr
    have hrt := runTask_classify_error ctx fsys stStart e1 st1 _ hct
    have hrp := runPost_of_runTask_error ctx fsys e1 st1 _
      (fatalDirMsg_ne_cancel m) hrt
    rw [hrp]
    have hcnt := benign_counts e1 hb.1
    refine ⟨?_, ?_, ?_, ?_⟩
    · simp only [List.countP_cons, List.countP_append, hcnt.1]
      simp [isAttempt]
    · simp only [List.countP_cons, List.countP_append, hcnt.2.2]
      simp [isWrite]
    · rw [show Ev.mkdirBase :: Ev.log createdMsg ::
        (e1 ++ [Ev.errorEv (fatalDirMsg m)]) =
        (Ev.mkdirBase :: Ev.log createdMsg :: e1) ++
          [Ev.errorEv (fatalDirMsg m)] from by simp]
      exact List.getLast?_concat _
    · simp [hb.2.1, stStart]

/-- Witness for C9's amended statement at the concrete one-bad-file
directory. -/
theorem claim9_scan_failures_witness :
    classifyPure (Except.ok [(("bad.txt"), Except.error ("EACCES")),
      (("good.txt"), Except.ok ("Hello"))]) =
      Except.error (fatalDirMsg ("EACCES")) ∧
    (runPost ⟨none, fun _ _ => AttemptOutcome.err ("boom"),
        ⟨⟨0, 0, 1, 0⟩, ⟨("m"), ("x"), ("x"), ("p"), ("x")⟩⟩⟩
      (Except.ok [(("bad.txt"), Except.error ("EACCES")),
        (("good.txt"), Except.ok ("Hello"))])).2.allResults = [] := by
  have h := claim9_scan_failures
    ⟨none, fun _ _ => AttemptOutcome.err ("boom"),
      ⟨⟨0, 0, 1, 0⟩, ⟨("m"), ("x"), ("x"), ("p"), ("x")⟩⟩⟩ rfl
  have h1 := h.1 [] ("bad.txt") ("EACCES")
    [(("good.txt"), Except.ok ("Hello"))]
  exact ⟨h1, (h.2.2 _ ("EACCES") h1).2.2.2⟩

/-! ## C4: blank system prompts skip whole categories -/

def isUpdate : Ev → Bool
  | Ev.update _ _ _ => true
  | _ => false

/-- The blank-QA-prompt end-to-end scenario: one QA file with six pairs,
`qaCount = 2`, every other count 0, and a whitespace-only QA system
prompt. -/
def ctxBlank : Ctx :=
  ⟨none, fun _ _ => AttemptOutcome.err ("never"),
   ⟨⟨2, 0, 0, 0⟩, ⟨("m"), (" "), ("x"), ("x"), ("x")⟩⟩⟩

def fsBlank : FileSys := Except.ok [(("qa.txt"), Except.ok sixPairFile)]

/-- C4: a category whose system prompt is blank is skipped without any
model invocation, `completedTasks` still advances by the category's full
task count, and exactly one skip-flagged `update` event is emitted; in
the end-to-end blank-QA scenario the run finishes with
`completedTasks = totalTasks = 12`, zero attempts, zero result writes and
a final `done` event. -/
theorem claim4_blank_prompt_skip :
    (∀ ctx docs T tt prompt arr count st, ctx.cancelAt = none →
      prompt.data.all Char.isWhitespace = true →
      executeGenerationTask ctx docs T tt prompt arr count st =
        ([Ev.poll false, Ev.log (skipLogMsg tt (arr.length * count)),
          Ev.poll false,
          Ev.update (skipUpdateMsg tt) (st.currentTask + arr.length * count)
            T],
         ({ st with
            time := st.time + 4
            currentTask := st.currentTask + arr.length * count } : EngineSt),
         none)) ∧
    classifyPure fsBlank = Except.ok ⟨blocksOf sixPairFile, [], []⟩ ∧
    totalTasksOf ⟨blocksOf sixPairFile, [], []⟩ ctxBlank.cfg.testConfig = 12 ∧
    (runPost ctxBlank fsBlank).2.currentTask = 12 ∧
    ((runPost ctxBlank fsBlank).1.filter (fun e => isUpdate e)) =
      [Ev.update (skipUpdateMsg TaskType.QA) 12 12] ∧
    (runPost ctxBlank fsBlank).1.countP (fun e => isAttempt e) = 0 ∧
    writesOf (runPost ctxBlank fsBlank).1 = [] ∧
    (runPost ctxBlank fsBlank).1.getLast? = some Ev.done := by
  refine ⟨?_, rfl, by decide, by decide, rfl, by decide, rfl, rfl⟩
  intro ctx docs T tt prompt arr count st hc hblank
  simp [executeGenerationTask, onProgress, cancelledAt, hc, hblank, bump]

/-- Witness for C4's general skip clause at a concrete blank-prompt
category. -/
theorem claim4_blank_prompt_skip_witness :
    executeGenerationTask ctxBlank [] 12 TaskType.QA (" ")
      ((blocksOf sixPairFile).map ContentItem.text) 2 stStart =
      ([Ev.poll false, Ev.log (skipLogMsg TaskType.QA 12), Ev.poll false,
        Ev.update (skipUpdateMsg TaskType.QA) 12 12],
       ({ stStart with
          time := stStart.time + 4
          currentTask := 12 } : EngineSt), none) := by
  have h := claim4_blank_prompt_skip.1 ctxBlank [] 12 TaskType.QA (" ")
    ((blocksOf sixPairFile).map ContentItem.text) 2 stStart rfl (by decide)
  simpa using h

/-! ## Trace-segment invariants

`GoodSeg cAt T st st' evs` bundles the run invariants of one engine
segment: time accounting, monotone non-decreasing task counter, update
events bounded by the counter endpoints and sorted, constant reported
total, result writes forming one-entry-at-a-time full-list snapshots,
no attempt/write after an observed cancellation, and observed
cancellations really being set. -/

def GoodSeg (cAt : Option Nat) (T : Nat) (st st' : EngineSt)
    (evs : List Ev) : Prop :=
  st'.time = st.time + evs.length ∧
  st.currentTask ≤ st'.currentTask ∧
  (∀ x ∈ updateCurrs evs, st.currentTask ≤ x ∧ x ≤ st'.currentTask) ∧
  List.Chain' (· ≤ ·) (updateCurrs evs) ∧
  (∀ p ∈ updatePairs evs, p.2 = T) ∧
  (∃ new, st'.allResults = st.allResults ++ new ∧
    writesOf evs = snapshotsFrom st.allResults new ∧
    ∀ e ∈ new, e.score = 10) ∧
  noAWafter evs = true ∧
  (evs.any isPollTrue = true → cancelledAt cAt st'.time = true)

theorem cancelledAt_mono {cAt : Option Nat} {t t' : Nat}
    (h : cancelledAt cAt t = true) (hle : t ≤ t') :
    cancelledAt cAt t' = true := by
  cases cAt with
  | none => simp [cancelledAt] at h
  | some k =>
    simp only [cancelledAt, decide_eq_true_eq] at h ⊢
    omega

theorem updatePairs_append (a b : List Ev) :
    updatePairs (a ++ b) = updatePairs a ++ updatePairs b :=
  List.filterMap_append a b _

theorem updateCurrs_append (a b : List Ev) :
    updateCurrs (a ++ b) = updateCurrs a ++ updateCurrs b := by
  simp [updateCurrs, updatePairs_append]

theorem writesOf_append (a b : List Ev) :
    writesOf (a ++ b) = writesOf a ++ writesOf b :=
  List.filterMap_append a b _

theorem snapshotsFrom_append (base : List ResultEntry) :
    ∀ n1 n2, snapshotsFrom base (n1 ++ n2) =
      snapshotsFrom base n1 ++ snapshotsFrom (base ++ n1) n2 := by
  intro n1
  induction n1 generalizing base with
  | nil => intro n2; simp [snapshotsFrom]
  | cons e rest ih =>
    intro n2
    simp [snapshotsFrom, ih (base ++ [e]), List.append_assoc]

theorem noAWafter_of_no_pollTrue :
    ∀ evs : List Ev, (∀ e ∈ evs, isPollTrue e = false) →
      noAWafter evs = true := by
  intro evs
  induction evs with
  | nil => intro _; rfl
  | cons x rest ih =>
    intro h
    have hx := h x (List.mem_cons_self x rest)
    have hr := ih (fun e he => h e (List.mem_cons_of_mem x he))
    cases x with
    | poll b => cases b with
      | true => simp [isPollTrue] at hx
      | false => simpa [noAWafter] using hr
    | _ => simpa [noAWafter] using hr

theorem noAWafter_append :
    ∀ e1 e2 : List Ev, noAWafter e1 = true → noAWafter e2 = true →
      (e1.any isPollTrue = true → e2.all (fun e => !(isAW e)) = true) →
      noAWafter (e1 ++ e2) = true := by
  intro e1
  induction e1 with
  | nil => intro e2 _ h2 _; simpa using h2
  | cons x rest ih =>
    intro e2 h1 h2 h3
    cases x with
    | poll b =>
      cases b with
      | true =>
        have hrest : rest.all (fun e => !(isAW e)) = true := by
          simpa [noAWafter] using h1
        have he2 : e2.all (fun e => !(isAW e)) = true :=
          h3 (by simp [isPollTrue])
        simp only [List.cons_append, noAWafter]
        show ((rest ++ e2).all fun e => !isAW e) = true
        rw [List.all_append]
        simp [hrest, he2]
      | false =>
        have hrest : noAWafter rest = true := by simpa [noAWafter] using h1
        have := ih e2 hrest h2 (fun h => h3 (by simp [h, isPollTrue]))
        simpa [noAWafter] using this
    | log m =>
      have hrest : noAWafter rest = true := by simpa [noAWafter] using h1
      have := ih e2 hrest h2 (fun h => h3 (by simp [h, isPollTrue]))
      simpa [noAWafter] using this
    | update a b c =>
      have hrest : noAWafter rest = true := by simpa [noAWafter] using h1
      have := ih e2 hrest h2 (fun h => h3 (by simp [h, isPollTrue]))
      simpa [noAWafter] using this
    | stateUpdate a b c =>
      have hrest : noAWafter rest = true := by simpa [noAWafter] using h1
      have := ih e2 hrest h2 (fun h => h3 (by simp [h, isPollTrue]))
      simpa [noAWafter] using this
    | tokenUse a =>
      have hrest : noAWafter rest = true := by simpa [noAWafter] using h1
      have := ih e2 hrest h2 (fun h => h3 (by simp [h, isPollTrue]))
      simpa [noAWafter] using this
    | mkdirBase =>
      have hrest : noAWafter rest = true := by simpa [noAWafter] using h1
      have := ih e2 hrest h2 (fun h => h3 (by simp [h, isPollTrue]))
      simpa [noAWafter] using this
    | mkdirLoop a =>
      have hrest : noAWafter rest = true := by simpa [noAWafter] using h1
      have := ih e2 hrest h2 (fun h => h3 (by simp [h, isPollTrue]))
      simpa [noAWafter] using this
    | ensureLog a =>
      have hrest : noAWafter rest = true := by simpa [noAWafter] using h1
      have := ih e2 hrest h2 (fun h => h3 (by simp [h, isPollTrue]))
      simpa [noAWafter] using this
    | appendLog a =>
      have hrest : noAWafter rest = true := by simpa [noAWafter] using h1
      have := ih e2 hrest h2 (fun h => h3 (by simp [h, isPollTrue]))
      simpa [noAWafter] using this
    | attempt a b c =>
      have hrest : noAWafter rest = true := by simpa [noAWafter] using h1
      have := ih e2 hrest h2 (fun h => h3 (by simp [h, isPollTrue]))
      simpa [noAWafter] using this
    | delay a =>
      have hrest : noAWafter rest = true := by simpa [noAWafter] using h1
      have := ih e2 hrest h2 (fun h => h3 (by simp [h, isPollTrue]))
      simpa [noAWafter] using this
    | writeResults a =>
      have hrest : noAWafter rest = true := by simpa [noAWafter] using h1
      have := ih e2 hrest h2 (fun h => h3 (by simp [h, isPollTrue]))
      simpa [noAWafter] using this
    | done =>
      have hrest : noAWafter rest = true := by simpa [noAWafter] using h1
      have := ih e2 hrest h2 (fun h => h3 (by simp [h, isPollTrue]))
      simpa [noAWafter] using this
    | errorEv m =>
      have hrest : noAWafter rest = true := by simpa [noAWafter] using h1
      have := ih e2 hrest h2 (fun h => h3 (by simp [h, isPollTrue]))
      simpa [noAWafter] using this

theorem mem_of_getLast?_mem {α : Type} {l : List α} {x : α}
    (h : x ∈ l.getLast?) : x ∈ l := by
  obtain ⟨hne, rfl⟩ := List.mem_getLast?_eq_getLast h
  exact List.getLast_mem hne

theorem mem_of_head?_mem {α : Type} {l : List α} {x : α}
    (h : x ∈ l.head?) : x ∈ l := by
  cases l with
  | nil => simp at h
  | cons a t =>
    simp only [List.head?_cons, Option.mem_def, Option.some.injEq] at h
    subst h
    exact List.mem_cons_self a t

/-- Sequential composition of good segments.  The side condition says the
continuation consists of harmless events when the first segment already
observed the cancellation; it is discharged from the continuation's
stop-on-cancel behaviour or from the first segment having no observed
cancellation at all. -/
theorem GoodSeg.glue {cAt : Option Nat} {T : Nat} {st st1 st2 : EngineSt}
    {e1 e2 : List Ev} (h1 : GoodSeg cAt T st st1 e1)
    (h2 : GoodSeg cAt T st1 st2 e2)
    (hstop : e1.any isPollTrue = true →
      e2.all (fun e => !(isAW e)) = true) :
    GoodSeg cAt T st st2 (e1 ++ e2) := by
  obtain ⟨t1, m1, b1, c1, T1, ⟨n1, r1, w1, s1⟩, a1, p1⟩ := h1
  obtain ⟨t2, m2, b2, c2, T2, ⟨n2, r2, w2, s2⟩, a2, p2⟩ := h2
  refine ⟨?_, le_trans m1 m2, ?_, ?_, ?_, ⟨n1 ++ n2, ?_, ?_, ?_⟩, ?_, ?_⟩
  · rw [t2, t1, List.length_append]; omega
  · intro x hx
    rw [updateCurrs_append, List.mem_append] at hx
    rcases hx with hx | hx
    · exact ⟨(b1 x hx).1, le_trans (b1 x hx).2 m2⟩
    · exact ⟨le_trans m1 (b2 x hx).1, (b2 x hx).2⟩
  · rw [updateCurrs_append]
    refine List.Chain'.append c1 c2 ?_
    intro x hx y hy
    exact le_trans (b1 x (mem_of_getLast?_mem hx)).2
      (b2 y (mem_of_head?_mem hy)).1
  · intro p hp
    rw [updatePairs_append, List.mem_append] at hp
    rcases hp with hp | hp
    · exact T1 p hp
    · exact T2 p hp
  · rw [r2, r1, List.append_assoc]
  · rw [writesOf_append, w1, w2, r1, snapshotsFrom_append]
  · intro e he
    rw [List.mem_append] at he
    rcases he with he | he
    · exact s1 e he
    · exact s2 e he
  · exact noAWafter_append e1 e2 a1 a2 hstop
  · intro h
    rw [List.any_append] at h
    rcases Bool.or_eq_true_iff.mp h with h | h
    · exact cancelledAt_mono (p1 h) (by rw [t2]; omega)
    · exact p2 h

/-- A good segment with no updates, no writes and no effect on the
counters: only time passes. -/
theorem GoodSeg_simple {cAt : Option Nat} {T : Nat} (st : EngineSt)
    (evs : List Ev) (h1 : updatePairs evs = []) (h2 : writesOf evs = [])
    (h3 : noAWafter evs = true)
    (h4 : evs.any isPollTrue = true →
      cancelledAt cAt (st.time + evs.length) = true) :
    GoodSeg cAt T st (bump st evs.length) evs := by
  refine ⟨rfl, le_refl _, ?_, ?_, ?_, ⟨[], by simp, by simp [h2, snapshotsFrom],
    by simp⟩, h3, ?_⟩
  · intro x hx; rw [updateCurrs, h1] at hx; simp at hx
  · rw [updateCurrs, h1]; simp
  · intro p hp; rw [h1] at hp; simp at hp
  · simpa using h4

theorem GoodSeg_nil {cAt : Option Nat} {T : Nat} (st : EngineSt) :
    GoodSeg cAt T st st [] := by
  refine ⟨by simp, le_refl _, by simp [updateCurrs, updatePairs], ?_,
    by simp [updatePairs], ⟨[], by simp, by simp [writesOf, snapshotsFrom],
    by simp⟩, rfl, by simp⟩
  simp [updateCurrs, updatePairs]

/-- A good segment that neither updates the counter nor writes. -/
theorem GoodSeg_noUpd {cAt : Option Nat} {T : Nat} {st st' : EngineSt}
    {evs : List Ev} (ht : st'.time = st.time + evs.length)
    (hm : st.currentTask ≤ st'.currentTask)
    (hr : st'.allResults = st.allResults)
    (h1 : updatePairs evs = []) (h2 : writesOf evs = [])
    (h3 : noAWafter evs = true)
    (h4 : evs.any isPollTrue = true → cancelledAt cAt st'.time = true) :
    GoodSeg cAt T st st' evs := by
  refine ⟨ht, hm, ?_, ?_, ?_, ⟨[], by simp [hr], by simp [h2, snapshotsFrom],
    by simp⟩, h3, h4⟩
  · intro x hx; rw [updateCurrs, h1] at hx; simp at hx
  · rw [updateCurrs, h1]; simp
  · intro p hp; rw [h1] at hp; simp at hp

/-- The result-file write that follows each appended entry is a good
segment: the write is the previous list plus exactly the new entry. -/
theorem GoodSeg_write {cAt : Option Nat} {T : Nat} (st : EngineSt)
    (entry : ResultEntry) (h10 : entry.score = 10) :
    GoodSeg cAt T st
      (bump ({ st with allResults := st.allResults ++ [entry] }) 1)
      [Ev.writeResults (st.allResults ++ [entry])] := by
  refine ⟨by simp, le_refl _, ?_, ?_, ?_,
    ⟨[entry], by simp, by simp [writesOf, snapshotsFrom], ?_⟩, rfl, ?_⟩
  · intro x hx; simp [updateCurrs, updatePairs] at hx
  · simp [updateCurrs, updatePairs]
  · intro p hp; simp [updatePairs] at hp
  · intro e he; simp at he; subst he; exact h10
  · intro h; simp [isPollTrue] at h

theorem safe_evs_facts (oracle : Nat → AttemptOutcome) (tid : Nat)
    (msg : String) (r : Nat) :
    updatePairs (safeModelCall oracle tid msg r).2 = [] ∧
    writesOf (safeModelCall oracle tid msg r).2 = [] ∧
    ((safeModelCall oracle tid msg r).2.any isPollTrue) = false ∧
    noAWafter (safeModelCall oracle tid msg r).2 = true := by
  have hmem : ∀ e ∈ (safeModelCall oracle tid msg r).2,
      (∃ j, e = Ev.attempt tid j msg) ∨ e = Ev.delay 2000 := by
    obtain ⟨n, _, _, _, hev⟩ := safeGo_shape oracle tid msg r (r + 1) 0
    intro e he
    rw [show (safeModelCall oracle tid msg r).2 =
      (safeGo oracle tid msg r (r + 1) 0).2 from rfl, hev] at he
    exact attemptSeg_mem tid msg n 0 e he
  refine ⟨?_, ?_, ?_, ?_⟩
  · rw [updatePairs, List.filterMap_eq_nil_iff]
    intro e he
    rcases hmem e he with ⟨j, rfl⟩ | rfl <;> rfl
  · rw [writesOf, List.filterMap_eq_nil_iff]
    intro e he
    rcases hmem e he with ⟨j, rfl⟩ | rfl <;> rfl
  · rw [List.any_eq_false]
    intro e he
    rcases hmem e he with ⟨j, rfl⟩ | rfl <;> simp [isPollTrue]
  · apply noAWafter_of_no_pollTrue
    intro e he
    rcases hmem e he with ⟨j, rfl⟩ | rfl <;> simp [isPollTrue]

theorem GoodSeg_pollFalse {cAt : Option Nat} {T : Nat} (st : EngineSt) :
    GoodSeg cAt T st (bump st 1) [Ev.poll false] := by
  refine GoodSeg_noUpd (by simp) (le_refl _) rfl rfl rfl rfl ?_
  intro h; simp [isPollTrue] at h

theorem GoodSeg_pollTrue {cAt : Option Nat} {T : Nat} (st : EngineSt)
    (h : cancelledAt cAt st.time = true) :
    GoodSeg cAt T st (bump st 1) [Ev.poll true] := by
  refine GoodSeg_noUpd (by simp) (le_refl _) rfl rfl rfl rfl ?_
  intro _
  exact cancelledAt_mono h (by simp)

/-- The counter increment followed by its emitted `update` event. -/
theorem GoodSeg_updateSeg {cAt : Option Nat} {T : Nat} (st1 : EngineSt)
    (msg : String) :
    GoodSeg cAt T st1
      (bump ({ st1 with currentTask := st1.currentTask + 1 }) 2)
      [Ev.poll false, Ev.update msg (st1.currentTask + 1) T] := by
  refine ⟨by simp, by simp, ?_, ?_, ?_, ⟨[], by simp, by simp [writesOf,
    snapshotsFrom], by simp⟩, rfl, ?_⟩
  · intro x hx
    simp [updateCurrs, updatePairs] at hx
    subst hx
    simp
  · simp [updateCurrs, updatePairs]
  · intro p hp
    simp [updatePairs] at hp
    simp [hp]
  · intro h; simp [isPollTrue] at h

/-- The counter increment when the `update` emission throws on abort. -/
theorem GoodSeg_updateThrow {cAt : Option Nat} {T : Nat} (st1 : EngineSt)
    (h : cancelledAt cAt st1.time = true) :
    GoodSeg cAt T st1
      (bump ({ st1 with currentTask := st1.currentTask + 1 }) 1)
      [Ev.poll true] := by
  refine GoodSeg_noUpd (by simp) (by simp) rfl rfl rfl rfl ?_
  intro _
  exact cancelledAt_mono h (by simp)
theorem bump_mk (a b c : Nat) (d : List ResultEntry) (n : Nat) :
    bump ⟨a, b, c, d⟩ n = ⟨a + n, b, c, d⟩ := rfl

theorem execItems_good (ctx : Ctx) (docs : List (String × String)) (T : Nat)
    (tt : TaskType) (len loop : Nat) :
    ∀ (items : List ContentItem) (i : Nat) (st : EngineSt),
      GoodSeg ctx.cancelAt T st
        (execItems ctx docs T tt len loop items i st).2.1
        (execItems ctx docs T tt len loop items i st).1 ∧
      (execItems ctx docs T tt len loop items i st).2.1.currentTask ≤
        st.currentTask + items.length ∧
      (cancelledAt ctx.cancelAt st.time = true →
        ((execItems ctx docs T tt len loop items i st).1.all
          (fun e => !(isAW e))) = true) := by
  intro items
  induction items with
  | nil =>
    intro i st
    refine ⟨GoodSeg_nil st, by simp [execItems], ?_⟩
    intro _
    simp [execItems]
  | cons item rest ih =>
    intro i st
    by_cases hb : cancelledAt ctx.cancelAt st.time = true
    · have hred : execItems ctx docs T tt len loop (item :: rest) i st =
          ([Ev.poll true], bump st 1, none) := by
        rw [execItems]
        simp [pollEv, hb]
      rw [hred]
      refine ⟨GoodSeg_pollTrue st hb, by simp, fun _ => by
        simp [isAW, isAttempt, isWrite]⟩
    · rw [Bool.not_eq_true] at hb
      rw [execItems]
      simp only [pollEv, hb, Bool.false_eq_true, if_false, bump_time,
        bump_currentTask, bump_totalTokenUsage, bump_allResults]
      by_cases hb2 : cancelledAt ctx.cancelAt (st.time + 1) = true
      · simp only [onProgress, hb2, if_true]
        refine ⟨GoodSeg.glue (GoodSeg_pollFalse st)
          (GoodSeg_updateThrow (bump st 1) hb2)
          (by intro h; simp [isPollTrue] at h), ?_, fun h => h.elim⟩
        simp
      · simp only [onProgress, hb2, Bool.false_eq_true, if_false]
        generalize hsc : safeModelCall (ctx.oracle (st.currentTask + 1))
          (st.currentTask + 1) (taskSourceAndMsg tt docs loop i item).2 2 = sc
        obtain ⟨res, sevs⟩ := sc
        have hsf := safe_evs_facts (ctx.oracle (st.currentTask + 1))
          (st.currentTask + 1) (taskSourceAndMsg tt docs loop i item).2 2
        rw [hsc] at hsf
        simp only at hsf
        cases htu : res.tokenUsage with
        | some tu =>
          simp only [htu, bump_time, bump_currentTask, bump_totalTokenUsage,
            bump_allResults]
          by_cases hb3 : cancelledAt ctx.cancelAt
            (st.time + 1 + 2 + sevs.length) = true
          · simp only [hb3, if_true]
            refine ⟨?_, by simp, fun h => h.elim⟩
            have g1 : GoodSeg ctx.cancelAt T st (bump st 1) [Ev.poll false] :=
              GoodSeg_pollFalse st
            have g2 : GoodSeg ctx.cancelAt T (bump st 1)
                (⟨st.time + 3, st.currentTask + 1, st.totalTokenUsage,
                  st.allResults⟩ : EngineSt)
                [Ev.poll false, Ev.update (("[") ++ tt.render ++ ("] ") ++
                  toString (i + 1) ++ ("/") ++ toString len ++ (" (第") ++
                  toString loop ++ ("轮)")) (st.currentTask + 1) T] :=
              GoodSeg_updateSeg (bump st 1) _
            have g12 := GoodSeg.glue g1 g2
              (by intro h; simp [isPollTrue] at h)
            have g3 : GoodSeg ctx.cancelAt T
                (⟨st.time + 3, st.currentTask + 1, st.totalTokenUsage,
                  st.allResults⟩ : EngineSt)
                (⟨st.time + 3 + sevs.length, st.currentTask + 1,
                  st.totalTokenUsage, st.allResults⟩ : EngineSt) sevs :=
              GoodSeg_noUpd rfl (le_refl _) rfl hsf.1 hsf.2.1 hsf.2.2.2
                (by rw [hsf.2.2.1]; intro h; cases h)
            have g123 := GoodSeg.glue g12 g3
              (by intro h; simp [isPollTrue] at h)
            have g4 : GoodSeg ctx.cancelAt T
                (⟨st.time + 3 + sevs.length, st.currentTask + 1,
                  st.totalTokenUsage, st.allResults⟩ : EngineSt)
                (⟨st.time + 3 + sevs.length + 1, st.currentTask + 1,
                  st.totalTokenUsage + tu.total_tokens,
                  st.allResults⟩ : EngineSt) [Ev.poll true] :=
              GoodSeg_noUpd rfl (le_refl _) rfl rfl rfl rfl
                (fun _ => cancelledAt_mono hb3 (by simp))
            exact GoodSeg.glue g123 g4 (fun _ => rfl)
          · simp only [hb3, Bool.false_eq_true, if_false, emit, bump_time,
              bump_currentTask, bump_totalTokenUsage, bump_allResults]
            by_cases hb4 : cancelledAt ctx.cancelAt
              (st.time + 1 + 2 + sevs.length + 2 + 1) = true
            · simp only [hb4, if_true]
              refine ⟨?_, by simp, fun h => h.elim⟩
              have g1 : GoodSeg ctx.cancelAt T st (bump st 1)
                  [Ev.poll false] := GoodSeg_pollFalse st
              have g2 : GoodSeg ctx.cancelAt T (bump st 1)
                  (⟨st.time + 3, st.currentTask + 1, st.totalTokenUsage,
                    st.allResults⟩ : EngineSt)
                  [Ev.poll false, Ev.update (("[") ++ tt.render ++ ("] ") ++
                    toString (i + 1) ++ ("/") ++ toString len ++ (" (第") ++
                    toString loop ++ ("轮)")) (st.currentTask + 1) T] :=
                GoodSeg_updateSeg (bump st 1) _
              have g12 := GoodSeg.glue g1 g2
                (by intro h; simp [isPollTrue] at h)
              have g3 : GoodSeg ctx.cancelAt T
                  (⟨st.time + 3, st.currentTask + 1, st.totalTokenUsage,
                    st.allResults⟩ : EngineSt)
                  (⟨st.time + 3 + sevs.length, st.currentTask + 1,
                    st.totalTokenUsage, st.allResults⟩ : EngineSt) sevs :=
                GoodSeg_noUpd rfl (le_refl _) rfl hsf.1 hsf.2.1 hsf.2.2.2
                  (by rw [hsf.2.2.1]; intro h; cases h)
              have g123 := GoodSeg.glue g12 g3
                (by intro h; simp [isPollTrue] at h)
              have g4 : GoodSeg ctx.cancelAt T
                  (⟨st.time + 3 + sevs.length, st.currentTask + 1,
                    st.totalTokenUsage, st.allResults⟩ : EngineSt)
                  (⟨st.time + 3 + sevs.length + 2, st.currentTask + 1,
                    st.totalTokenUsage + tu.total_tokens,
                    st.allResults⟩ : EngineSt)
                  [Ev.poll false,
                   Ev.tokenUse (st.totalTokenUsage + tu.total_tokens)] :=
                GoodSeg_noUpd rfl (le_refl _) rfl rfl rfl rfl
                  (by intro h; simp [isPollTrue] at h)
              have g1234 := GoodSeg.glue g123 g4
                (by intro h
                    simp [isPollTrue, List.any_append, hsf.2.2.1] at h)
              have g5 : GoodSeg ctx.cancelAt T
                  (⟨st.time + 3 + sevs.length + 2, st.currentTask + 1,
                    st.totalTokenUsage + tu.total_tokens,
                    st.allResults⟩ : EngineSt)
                  (⟨st.time + 3 + sevs.length + 2 + 1, st.currentTask + 1,
                    st.totalTokenUsage + tu.total_tokens,
                    st.allResults⟩ : EngineSt) [Ev.appendLog loop] :=
                GoodSeg_noUpd rfl (le_refl _) rfl rfl rfl rfl
                  (by intro h; simp [isPollTrue] at h)
              have g15 := GoodSeg.glue g1234 g5
                (by intro h
                    simp [isPollTrue, List.any_append, hsf.2.2.1] at h)
              have g6 : GoodSeg ctx.cancelAt T
                  (⟨st.time + 3 + sevs.length + 2 + 1, st.currentTask + 1,
                    st.totalTokenUsage + tu.total_tokens,
                    st.allResults⟩ : EngineSt)
                  (⟨st.time + 3 + sevs.length + 2 + 1 + 1,
                    st.currentTask + 1,
                    st.totalTokenUsage + tu.total_tokens,
                    st.allResults⟩ : EngineSt) [Ev.poll true] :=
                GoodSeg_noUpd rfl (le_refl _) rfl rfl rfl rfl
                  (fun _ => cancelledAt_mono hb4 (by simp))
              exact GoodSeg.glue g15 g6 (fun _ => rfl)
            · simp only [hb4, Bool.false_eq_true, if_false, bump_time,
                bump_currentTask, bump_totalTokenUsage, bump_allResults,
                bump_mk]
              have hih := ih (i + 1)
                (⟨st.time + 1 + 2 + sevs.length + 2 + 1 + 2 + 1,
                  st.currentTask + 1, st.totalTokenUsage + tu.total_tokens,
                  st.allResults ++ [⟨st.currentTask + 1, tt,
                    (questionAnswerOf res).1, (questionAnswerOf res).2,
                    10⟩]⟩ : EngineSt)
              refine ⟨?_, ?_, fun h => h.elim⟩
              · have g1 : GoodSeg ctx.cancelAt T st (bump st 1)
                    [Ev.poll false] := GoodSeg_pollFalse st
                have g2 : GoodSeg ctx.cancelAt T (bump st 1)
                    (⟨st.time + 3, st.currentTask + 1, st.totalTokenUsage,
                      st.allResults⟩ : EngineSt)
                    [Ev.poll false, Ev.update (("[") ++ tt.render ++ ("] ") ++
                      toString (i + 1) ++ ("/") ++ toString len ++ (" (第") ++
                      toString loop ++ ("轮)")) (st.currentTask + 1) T] :=
                  GoodSeg_updateSeg (bump st 1) _
                have g12 := GoodSeg.glue g1 g2
                  (by intro h; simp [isPollTrue] at h)
                have g3 : GoodSeg ctx.cancelAt T
                    (⟨st.time + 3, st.currentTask + 1, st.totalTokenUsage,
                      st.allResults⟩ : EngineSt)
                    (⟨st.time + 3 + sevs.length, st.currentTask + 1,
                      st.totalTokenUsage, st.allResults⟩ : EngineSt) sevs :=
                  GoodSeg_noUpd rfl (le_refl _) rfl hsf.1 hsf.2.1 hsf.2.2.2
                    (by rw [hsf.2.2.1]; intro h; cases h)
                have g123 := GoodSeg.glue g12 g3
                  (by intro h; simp [isPollTrue] at h)
                have g4 : GoodSeg ctx.cancelAt T
                    (⟨st.time + 3 + sevs.length, st.currentTask + 1,
                      st.totalTokenUsage, st.allResults⟩ : EngineSt)
                    (⟨st.time + 3 + sevs.length + 2, st.currentTask + 1,
                      st.totalTokenUsage + tu.total_tokens,
                      st.allResults⟩ : EngineSt)
                    [Ev.poll false,
                     Ev.tokenUse (st.totalTokenUsage + tu.total_tokens)] :=
                  GoodSeg_noUpd rfl (le_refl _) rfl rfl rfl rfl
                    (by intro h; simp [isPollTrue] at h)
                have g1234 := GoodSeg.glue g123 g4
                  (by intro h
                      simp [isPollTrue, List.any_append, hsf.2.2.1] at h)
                have g5 : GoodSeg ctx.cancelAt T
                    (⟨st.time + 3 + sevs.length + 2, st.currentTask + 1,
                      st.totalTokenUsage + tu.total_tokens,
                      st.allResults⟩ : EngineSt)
                    (⟨st.time + 3 + sevs.length + 2 + 1, st.currentTask + 1,
                      st.totalTokenUsage + tu.total_tokens,
                      st.allResults⟩ : EngineSt) [Ev.appendLog loop] :=
                  GoodSeg_noUpd rfl (le_refl _) rfl rfl rfl rfl
                    (by intro h; simp [isPollTrue] at h)
                have g15 := GoodSeg.glue g1234 g5
                  (by intro h
                      simp [isPollTrue, List.any_append, hsf.2.2.1] at h)
                have g6su : GoodSeg ctx.cancelAt T
                    (⟨st.time + 3 + sevs.length + 2 + 1, st.currentTask + 1,
                      st.totalTokenUsage + tu.total_tokens,
                      st.allResults⟩ : EngineSt)
                    (⟨st.time + 3 + sevs.length + 2 + 1 + 2,
                      st.currentTask + 1,
                      st.totalTokenUsage + tu.total_tokens,
                      st.allResults⟩ : EngineSt)
                    [Ev.poll false,
                     Ev.stateUpdate (taskSourceAndMsg tt docs loop i item).1
                       (questionAnswerOf res).1 (questionAnswerOf res).2] :=
                  GoodSeg_noUpd rfl (le_refl _) rfl rfl rfl rfl
                    (by intro h; simp [isPollTrue] at h)
                have g16 := GoodSeg.glue g15 g6su
                  (by intro h
                      simp [isPollTrue, List.any_append, hsf.2.2.1] at h)
                have g7 : GoodSeg ctx.cancelAt T
                    (⟨st.time + 3 + sevs.length + 2 + 1 + 2,
                      st.currentTask + 1,
                      st.totalTokenUsage + tu.total_tokens,
                      st.allResults⟩ : EngineSt)
                    (⟨st.time + 3 + sevs.length + 2 + 1 + 2 + 1,
                      st.currentTask + 1,
                      st.totalTokenUsage + tu.total_tokens,
                      st.allResults ++ [⟨st.currentTask + 1, tt,
                        (questionAnswerOf res).1, (questionAnswerOf res).2,
                        10⟩]⟩ : EngineSt)
                    [Ev.writeResults (st.allResults ++ [⟨st.currentTask + 1,
                      tt, (questionAnswerOf res).1, (questionAnswerOf res).2,
                      10⟩])] :=
                  GoodSeg_write
                    (⟨st.time + 3 + sevs.length + 2 + 1 + 2,
                      st.currentTask + 1,
                      st.totalTokenUsage + tu.total_tokens,
                      st.allResults⟩ : EngineSt) _ rfl
                have g17 := GoodSeg.glue g16 g7
                  (by intro h
                      simp [isPollTrue, List.any_append, hsf.2.2.1] at h)
                exact GoodSeg.glue g17 hih.1
                  (by intro h
                      simp [isPollTrue, List.any_append, hsf.2.2.1] at h)
              · refine le_trans hih.2.1 ?_
                simp
                omega
        | none =>
          simp only [htu, bump_time, bump_currentTask, bump_totalTokenUsage,
            bump_allResults, bump_mk, emit]
          have g1 : GoodSeg ctx.cancelAt T st (bump st 1)
              [Ev.poll false] := GoodSeg_pollFalse st
          have g2 : GoodSeg ctx.cancelAt T (bump st 1)
              (⟨st.time + 3, st.currentTask + 1, st.totalTokenUsage,
                st.allResults⟩ : EngineSt)
              [Ev.poll false, Ev.update (("[") ++ tt.render ++ ("] ") ++
                toString (i + 1) ++ ("/") ++ toString len ++ (" (第") ++
                toString loop ++ ("轮)")) (st.currentTask + 1) T] :=
            GoodSeg_updateSeg (bump st 1) _
          have g12 := GoodSeg.glue g1 g2
            (by intro h; simp [isPollTrue] at h)
          have g3 : GoodSeg ctx.cancelAt T
              (⟨st.time + 3, st.currentTask + 1, st.totalTokenUsage,
                st.allResults⟩ : EngineSt)
              (⟨st.time + 3 + sevs.length, st.currentTask + 1,
                st.totalTokenUsage, st.allResults⟩ : EngineSt) sevs :=
            GoodSeg_noUpd rfl (le_refl _) rfl hsf.1 hsf.2.1 hsf.2.2.2
              (by rw [hsf.2.2.1]; intro h; cases h)
          have g123 := GoodSeg.glue g12 g3
            (by intro h; simp [isPollTrue] at h)
          have g4n : GoodSeg ctx.cancelAt T
              (⟨st.time + 3 + sevs.length, st.currentTask + 1,
                st.totalTokenUsage, st.allResults⟩ : EngineSt)
              (⟨st.time + 3 + sevs.length, st.currentTask + 1,
                st.totalTokenUsage, st.allResults⟩ : EngineSt)
              ([] : List Ev) := GoodSeg_nil _
          have g1234 := GoodSeg.glue g123 g4n
            (by intro h
                simp [isPollTrue, List.any_append, hsf.2.2.1] at h)
          have g5 : GoodSeg ctx.cancelAt T
              (⟨st.time + 3 + sevs.length, st.currentTask + 1,
                st.totalTokenUsage, st.allResults⟩ : EngineSt)
              (⟨st.time + 3 + sevs.length + 1, st.currentTask + 1,
                st.totalTokenUsage, st.allResults⟩ : EngineSt)
              [Ev.appendLog loop] :=
            GoodSeg_noUpd rfl (le_refl _) rfl rfl rfl rfl
              (by intro h; simp [isPollTrue] at h)
          have g15 := GoodSeg.glue g1234 g5
            (by intro h
                simp [isPollTrue, List.any_append, hsf.2.2.1] at h)
          by_cases hb4 : cancelledAt ctx.cancelAt
            (st.time + 1 + 2 + sevs.length + 1) = true
          · simp only [hb4, if_true]
            refine ⟨?_, by simp, fun h => h.elim⟩
            have g6 : GoodSeg ctx.cancelAt T
                (⟨st.time + 3 + sevs.length + 1, st.currentTask + 1,
                  st.totalTokenUsage, st.allResults⟩ : EngineSt)
                (⟨st.time + 3 + sevs.length + 1 + 1, st.currentTask + 1,
                  st.totalTokenUsage, st.allResults⟩ : EngineSt)
                [Ev.poll true] :=
              GoodSeg_noUpd rfl (le_refl _) rfl rfl rfl rfl
                (fun _ => cancelledAt_mono hb4 (by simp))
            exact GoodSeg.glue g15 g6 (fun _ => rfl)
          · simp only [hb4, Bool.false_eq_true, if_false]
            have hih := ih (i + 1)
              (⟨st.time + 1 + 2 + sevs.length + 1 + 2 + 1,
                st.currentTask + 1, st.totalTokenUsage,
                st.allResults ++ [⟨st.currentTask + 1, tt,
                  (questionAnswerOf res).1, (questionAnswerOf res).2,
                  10⟩]⟩ : EngineSt)
            refine ⟨?_, ?_, fun h => h.elim⟩
            · have g6su : GoodSeg ctx.cancelAt T
                  (⟨st.time + 3 + sevs.length + 1, st.currentTask + 1,
                    st.totalTokenUsage, st.allResults⟩ : EngineSt)
                  (⟨st.time + 3 + sevs.length + 1 + 2, st.currentTask + 1,
                    st.totalTokenUsage, st.allResults⟩ : EngineSt)
                  [Ev.poll false,
                   Ev.stateUpdate (taskSourceAndMsg tt docs loop i item).1
                     (questionAnswerOf res).1 (questionAnswerOf res).2] :=
                GoodSeg_noUpd rfl (le_refl _) rfl rfl rfl rfl
                  (by intro h; simp [isPollTrue] at h)
              have g16 := GoodSeg.glue g15 g6su
                (by intro h
                    simp [isPollTrue, List.any_append, hsf.2.2.1] at h)
              have g7 : GoodSeg ctx.cancelAt T
                  (⟨st.time + 3 + sevs.length + 1 + 2, st.currentTask + 1,
                    st.totalTokenUsage, st.allResults⟩ : EngineSt)
                  (⟨st.time + 3 + sevs.length + 1 + 2 + 1,
                    st.currentTask + 1, st.totalTokenUsage,
                    st.allResults ++ [⟨st.currentTask + 1, tt,
                      (questionAnswerOf res).1, (questionAnswerOf res).2,
                      10⟩]⟩ : EngineSt)
                  [Ev.writeResults (st.allResults ++ [⟨st.currentTask + 1,
                    tt, (questionAnswerOf res).1, (questionAnswerOf res).2,
                    10⟩])] :=
                GoodSeg_write
                  (⟨st.time + 3 + sevs.length + 1 + 2, st.currentTask + 1,
                    st.totalTokenUsage, st.allResults⟩ : EngineSt) _ rfl
              have g17 := GoodSeg.glue g16 g7
                (by intro h
                    simp [isPollTrue, List.any_append, hsf.2.2.1] at h)
              exact GoodSeg.glue g17 hih.1
                (by intro h
                    simp [isPollTrue, List.any_append, hsf.2.2.1] at h)
            · refine le_trans hih.2.1 ?_
              simp
              omega

theorem execLoops_good (ctx : Ctx) (docs : List (String × String)) (T : Nat)
    (tt : TaskType) (arr : List ContentItem) :
    ∀ (loops : List Nat) (st : EngineSt),
      GoodSeg ctx.cancelAt T st
        (execLoops ctx docs T tt arr loops st).2.1
        (execLoops ctx docs T tt arr loops st).1 ∧
      (execLoops ctx docs T tt arr loops st).2.1.currentTask ≤
        st.currentTask + loops.length * arr.length ∧
      (cancelledAt ctx.cancelAt st.time = true →
        ((execLoops ctx docs T tt arr loops st).1.all
          (fun e => !(isAW e))) = true) := by
  intro loops
  induction loops with
  | nil =>
    intro st
    refine ⟨GoodSeg_nil st, by simp [execLoops], ?_⟩
    intro _
    simp [execLoops]
  | cons loop rest ih =>
    intro st
    by_cases hb : cancelledAt ctx.cancelAt st.time = true
    · have hred : execLoops ctx docs T tt arr (loop :: rest) st =
          ([Ev.poll true], bump st 1, none) := by
        rw [execLoops]
        simp [pollEv, hb]
      rw [hred]
      refine ⟨GoodSeg_pollTrue st hb, by simp, fun _ => by
        simp [isAW, isAttempt, isWrite]⟩
    · rw [Bool.not_eq_true] at hb
      rw [execLoops]
      simp only [pollEv, hb, Bool.false_eq_true, if_false, bump_time,
        bump_currentTask, bump_totalTokenUsage, bump_allResults]
      by_cases hb2 : cancelledAt ctx.cancelAt (st.time + 1) = true
      · simp only [onProgress, bump_time]
        rw [if_pos hb2]
        refine ⟨?_, by simp, fun h => h.elim⟩
        have g1 : GoodSeg ctx.cancelAt T st (bump st 1) [Ev.poll false] :=
          GoodSeg_pollFalse st
        have g2 : GoodSeg ctx.cancelAt T (bump st 1) (bump (bump st 1) 1)
            [Ev.poll true] := GoodSeg_pollTrue (bump st 1) hb2
        exact GoodSeg.glue g1 g2 (by intro h; simp [isPollTrue] at h)
      · simp only [onProgress, bump_time]
        rw [if_neg hb2]
        simp only [emit, bump_time, bump_currentTask, bump_totalTokenUsage,
          bump_allResults, bump_mk]
        have hprefix : GoodSeg ctx.cancelAt T st
            (⟨st.time + 5, st.currentTask, st.totalTokenUsage,
              st.allResults⟩ : EngineSt)
            ([Ev.poll false] ++ [Ev.poll false, Ev.log (("[") ++ tt.render ++
              ("] 第 ") ++ toString loop ++ ("/") ++
              toString (loop + rest.length) ++ (" 轮..."))] ++
             [Ev.mkdirLoop loop] ++ [Ev.ensureLog loop]) := by
          have g1 : GoodSeg ctx.cancelAt T st (bump st 1) [Ev.poll false] :=
            GoodSeg_pollFalse st
          have g2 : GoodSeg ctx.cancelAt T (bump st 1)
              (⟨st.time + 3, st.currentTask, st.totalTokenUsage,
                st.allResults⟩ : EngineSt)
              [Ev.poll false, Ev.log (("[") ++ tt.render ++ ("] 第 ") ++
                toString loop ++ ("/") ++ toString (loop + rest.length) ++
                (" 轮..."))] :=
            GoodSeg_noUpd rfl (le_refl _) rfl rfl rfl rfl
              (by intro h; simp [isPollTrue] at h)
          have g12 := GoodSeg.glue g1 g2
            (by intro h; simp [isPollTrue] at h)
          have g3 : GoodSeg ctx.cancelAt T
              (⟨st.time + 3, st.currentTask, st.totalTokenUsage,
                st.allResults⟩ : EngineSt)
              (⟨st.time + 4, st.currentTask, st.totalTokenUsage,
                st.allResults⟩ : EngineSt) [Ev.mkdirLoop loop] :=
            GoodSeg_noUpd rfl (le_refl _) rfl rfl rfl rfl
              (by intro h; simp [isPollTrue] at h)
          have g123 := GoodSeg.glue g12 g3
            (by intro h; simp [isPollTrue] at h)
          have g4 : GoodSeg ctx.cancelAt T
              (⟨st.time + 4, st.currentTask, st.totalTokenUsage,
                st.allResults⟩ : EngineSt)
              (⟨st.time + 5, st.currentTask, st.totalTokenUsage,
                st.allResults⟩ : EngineSt) [Ev.ensureLog loop] :=
            GoodSeg_noUpd rfl (le_refl _) rfl rfl rfl rfl
              (by intro h; simp [isPollTrue] at h)
          exact GoodSeg.glue g123 g4 (by intro h; simp [isPollTrue] at h)
        have hitems := execItems_good ctx docs T tt arr.length loop arr 0
          (⟨st.time + 5, st.currentTask, st.totalTokenUsage,
            st.allResults⟩ : EngineSt)
        rcases hexec : execItems ctx docs T tt arr.length loop arr 0
            (⟨st.time + 5, st.currentTask, st.totalTokenUsage,
              st.allResults⟩ : EngineSt) with ⟨e5, st5, ctl⟩
        rw [hexec] at hitems
        simp only at hitems
        have hst : bump (bump (bump (bump st 1) 2) 1) 1 =
            (⟨st.time + 5, st.currentTask, st.totalTokenUsage,
              st.allResults⟩ : EngineSt) := rfl
        rw [hst]
        cases ctl with
        | some m =>
          simp only [hexec]
          refine ⟨?_, ?_, fun h => h.elim⟩
          · exact GoodSeg.glue hprefix hitems.1
              (by intro h; simp [isPollTrue, List.any_append] at h)
          · have hcap := hitems.2.1
            simp only [List.length_cons, Nat.succ_mul]
            omega
        | none =>
          simp only [hexec]
          have hrest := ih st5
          refine ⟨?_, ?_, fun h => h.elim⟩
          · refine GoodSeg.glue (GoodSeg.glue hprefix hitems.1
              (by intro h; simp [isPollTrue, List.any_append] at h))
              hrest.1 ?_
            intro h
            rw [List.any_append] at h
            rcases Bool.or_eq_true_iff.mp h with h | h
            · simp [isPollTrue, List.any_append] at h
            · have hcan := hitems.1.2.2.2.2.2.2.2 h
              exact hrest.2.2 hcan
          · have h1 := hitems.2.1
            have h2 := hrest.2.1
            simp only [List.length_cons, Nat.succ_mul]
            exact le_trans h2 (by omega)

/-- The counter jump of the blank-prompt skip, followed by its `update`
event. -/
theorem GoodSeg_updateJump {cAt : Option Nat} {T : Nat} (st1 : EngineSt)
    (msg : String) (L : Nat) :
    GoodSeg cAt T st1
      (bump ({ st1 with currentTask := st1.currentTask + L }) 2)
      [Ev.poll false, Ev.update msg (st1.currentTask + L) T] := by
  refine ⟨by simp, by simp, ?_, ?_, ?_, ⟨[], by simp, by simp [writesOf,
    snapshotsFrom], by simp⟩, rfl, ?_⟩
  · intro x hx
    simp [updateCurrs, updatePairs] at hx
    subst hx
    simp
  · simp [updateCurrs, updatePairs]
  · intro p hp
    simp [updatePairs] at hp
    simp [hp]
  · intro h; simp [isPollTrue] at h

/-- The counter jump when the skip `update` emission throws on abort. -/
theorem GoodSeg_updateJumpThrow {cAt : Option Nat} {T : Nat} (st1 : EngineSt)
    (L : Nat) (h : cancelledAt cAt st1.time = true) :
    GoodSeg cAt T st1
      (bump ({ st1 with currentTask := st1.currentTask + L }) 1)
      [Ev.poll true] := by
  refine GoodSeg_noUpd (by simp) (by simp) rfl rfl rfl rfl ?_
  intro _
  exact cancelledAt_mono h (by simp)

theorem executeGenerationTask_good (ctx : Ctx) (docs : List (String × String))
    (T : Nat) (tt : TaskType) (sp : String) (arr : List ContentItem)
    (uc : Nat) (st : EngineSt) :
    GoodSeg ctx.cancelAt T st
      (executeGenerationTask ctx docs T tt sp arr uc st).2.1
      (executeGenerationTask ctx docs T tt sp arr uc st).1 ∧
    (executeGenerationTask ctx docs T tt sp arr uc st).2.1.currentTask ≤
      st.currentTask + arr.length * uc ∧
    (cancelledAt ctx.cancelAt st.time = true →
      ((executeGenerationTask ctx docs T tt sp arr uc st).1.all
        (fun e => !(isAW e))) = true) := by
  by_cases hbl : sp.data.all Char.isWhitespace = true
  · by_cases h1 : cancelledAt ctx.cancelAt st.time = true
    · have hred : executeGenerationTask ctx docs T tt sp arr uc st =
          ([Ev.poll true], bump st 1, some cancelMsg) := by
        simp only [executeGenerationTask, hbl, if_true, onProgress, h1]
      rw [hred]
      exact ⟨GoodSeg_pollTrue st h1, by simp,
        fun _ => by simp [isAW, isAttempt, isWrite]⟩
    · rw [Bool.not_eq_true] at h1
      simp only [executeGenerationTask, hbl, if_true, onProgress, h1,
        Bool.false_eq_true, if_false, bump_time, bump_currentTask,
        bump_totalTokenUsage, bump_allResults]
      by_cases h2 : cancelledAt ctx.cancelAt (st.time + 2) = true
      · rw [if_pos h2]
        refine ⟨?_, by simp, fun h => h.elim⟩
        have g1 : GoodSeg ctx.cancelAt T st (bump st 2)
            [Ev.poll false, Ev.log (skipLogMsg tt (arr.length * uc))] :=
          GoodSeg_noUpd rfl (le_refl _) rfl rfl rfl rfl
            (by intro h; simp [isPollTrue] at h)
        have g2 : GoodSeg ctx.cancelAt T (bump st 2)
            (bump ({ bump st 2 with
              currentTask := (bump st 2).currentTask + arr.length * uc }) 1)
            [Ev.poll true] :=
          GoodSeg_updateJumpThrow (bump st 2) (arr.length * uc) h2
        exact GoodSeg.glue g1 g2 (by intro h; simp [isPollTrue] at h)
      · rw [if_neg h2]
        refine ⟨?_, by simp, fun h => h.elim⟩
        have g1 : GoodSeg ctx.cancelAt T st (bump st 2)
            [Ev.poll false, Ev.log (skipLogMsg tt (arr.length * uc))] :=
          GoodSeg_noUpd rfl (le_refl _) rfl rfl rfl rfl
            (by intro h; simp [isPollTrue] at h)
        have g2 : GoodSeg ctx.cancelAt T (bump st 2)
            (bump ({ bump st 2 with
              currentTask := (bump st 2).currentTask + arr.length * uc }) 2)
            [Ev.poll false, Ev.update (skipUpdateMsg tt)
              ((bump st 2).currentTask + arr.length * uc) T] :=
          GoodSeg_updateJump (bump st 2) (skipUpdateMsg tt) (arr.length * uc)
        exact GoodSeg.glue g1 g2 (by intro h; simp [isPollTrue] at h)
  · simp only [executeGenerationTask, hbl, Bool.false_eq_true, if_false]
    by_cases hvac : uc = 0 ∨ arr.length = 0
    · rw [if_pos hvac]
      exact ⟨GoodSeg_nil st, by simp, fun _ => by simp⟩
    · rw [if_neg hvac]
      by_cases h1 : cancelledAt ctx.cancelAt st.time = true
      · simp only [onProgress, h1, if_true]
        refine ⟨GoodSeg_pollTrue st h1, by simp,
          fun _ => by simp [isAW, isAttempt, isWrite]⟩
      · rw [Bool.not_eq_true] at h1
        simp only [onProgress, h1, Bool.false_eq_true, if_false]
        have hloops := execLoops_good ctx docs T tt arr
          (List.range' 1 uc) (bump st 2)
        rcases hexec : execLoops ctx docs T tt arr
            (List.range' 1 uc) (bump st 2) with ⟨e2, st2, ctl⟩
        rw [hexec] at hloops
        simp only at hloops
        simp only [hexec]
        refine ⟨?_, ?_, fun h => h.elim⟩
        · have g1 : GoodSeg ctx.cancelAt T st (bump st 2)
              [Ev.poll false, Ev.log (startMsg tt)] :=
            GoodSeg_noUpd rfl (le_refl _) rfl rfl rfl rfl
              (by intro h; simp [isPollTrue] at h)
          exact GoodSeg.glue g1 hloops.1
            (by intro h; simp [isPollTrue] at h)
        · have hcap := hloops.2.1
          rw [List.length_range'] at hcap
          simp only [bump_currentTask] at hcap
          calc st2.currentTask ≤ st.currentTask + uc * arr.length := hcap
            _ = st.currentTask + arr.length * uc := by rw [Nat.mul_comm]

/-- The classification loop is a good segment for any reported total: it
emits only logs and polls. -/
theorem classifyLoop_good (ctx : Ctx) (T : Nat) :
    ∀ (files : List (String × Except String String)) (K : Corpus)
      (st : EngineSt),
      GoodSeg ctx.cancelAt T st (classifyLoop ctx files K st).2.1
        (classifyLoop ctx files K st).1 ∧
      (cancelledAt ctx.cancelAt st.time = true →
        ((classifyLoop ctx files K st).1.all (fun e => !(isAW e))) = true) := by
  intro files
  induction files with
  | nil =>
    intro K st
    exact ⟨GoodSeg_nil st, fun _ => by simp [classifyLoop]⟩
  | cons f rest ih =>
    intro K st
    rcases f with ⟨n, c⟩
    cases c with
    | error m =>
      exact ⟨GoodSeg_nil st, fun _ => by simp [classifyLoop]⟩
    | ok content =>
      by_cases hb : cancelledAt ctx.cancelAt st.time = true
      · have hred : classifyLoop ctx ((n, Except.ok content) :: rest) K st =
            ([Ev.poll true], bump st 1, Except.error cancelMsg) := by
          simp [classifyLoop, onProgress, hb]
        rw [hred]
        exact ⟨GoodSeg_pollTrue st hb,
          fun _ => by simp [isAW, isAttempt, isWrite]⟩
      · rw [Bool.not_eq_true] at hb
        rw [show classifyLoop ctx ((n, Except.ok content) :: rest) K st =
            (match onProgress ctx st
                (Ev.log (classifyFileMsg n (5 < countQA content))) with
            | (e1, st1, some m) => (e1, st1, Except.error m)
            | (e1, st1, none) =>
              let p := classifyLoop ctx rest (classifyStep n content K) st1
              (e1 ++ p.1, p.2.1, p.2.2)) from rfl]
        simp only [onProgress, hb, Bool.false_eq_true, if_false]
        have hr := ih (classifyStep n content K) (bump st 2)
        refine ⟨?_, fun h => h.elim⟩
        have g1 : GoodSeg ctx.cancelAt T st (bump st 2)
            [Ev.poll false, Ev.log (classifyFileMsg n (5 < countQA content))] :=
          GoodSeg_noUpd rfl (le_refl _) rfl rfl rfl rfl
            (by intro h; simp [isPollTrue] at h)
        exact GoodSeg.glue g1 hr.1 (by intro h; simp [isPollTrue] at h)

/-- The whole classification stage is a good segment for any reported
total. -/
theorem classifyTraced_good (ctx : Ctx) (T : Nat) (fsys : FileSys)
    (st : EngineSt) :
    GoodSeg ctx.cancelAt T st (classifyTraced ctx fsys st).2.1
      (classifyTraced ctx fsys st).1 ∧
    (cancelledAt ctx.cancelAt st.time = true →
      ((classifyTraced ctx fsys st).1.all (fun e => !(isAW e))) = true) := by
  by_cases hb : cancelledAt ctx.cancelAt st.time = true
  · have hred : classifyTraced ctx fsys st =
        ([Ev.poll true], bump st 1, Except.error cancelMsg) := by
      simp [classifyTraced, onProgress, hb]
    rw [hred]
    exact ⟨GoodSeg_pollTrue st hb, fun _ => by simp [isAW, isAttempt, isWrite]⟩
  · rw [Bool.not_eq_true] at hb
    rw [classifyTraced]
    simp only [onProgress, hb, Bool.false_eq_true, if_false]
    have g1 : GoodSeg ctx.cancelAt T st (bump st 2)
        [Ev.poll false, Ev.log scanMsg] :=
      GoodSeg_noUpd rfl (le_refl _) rfl rfl rfl rfl
        (by intro h; simp [isPollTrue] at h)
    cases fsys with
    | error m =>
      exact ⟨GoodSeg.glue g1 (GoodSeg_nil (bump st 2))
        (by intro h; simp [isPollTrue] at h),
        fun h => h.elim⟩
    | ok files =>
      by_cases hb2 : cancelledAt ctx.cancelAt (st.time + 2) = true
      · simp only [onProgress, bump_time, hb2, if_true]
        refine ⟨?_, fun h => h.elim⟩
        exact GoodSeg.glue g1 (GoodSeg_pollTrue (bump st 2) hb2)
          (by intro h; simp [isPollTrue] at h)
      · simp only [onProgress, bump_time, hb2, Bool.false_eq_true, if_false]
        have g2 : GoodSeg ctx.cancelAt T (bump st 2) (bump (bump st 2) 2)
            [Ev.poll false, Ev.log (foundMsg files.length)] :=
          GoodSeg_noUpd rfl (le_refl _) rfl rfl rfl rfl
            (by intro h; simp [isPollTrue] at h)
        have hl := classifyLoop_good ctx T files emptyCorpus (bump (bump st 2) 2)
        rcases hloop : classifyLoop ctx files emptyCorpus (bump (bump st 2) 2)
          with ⟨e3, st3, r⟩
        rw [hloop] at hl
        simp only at hl
        have g123 : GoodSeg ctx.cancelAt T st st3
            ([Ev.poll false, Ev.log scanMsg] ++
              ([Ev.poll false, Ev.log (foundMsg files.length)] ++ e3)) :=
          GoodSeg.glue g1
            (GoodSeg.glue g2 hl.1 (by intro h; simp [isPollTrue] at h))
            (by intro h; simp [isPollTrue] at h)
        cases r with
        | error m =>
          simp only [hloop]
          exact ⟨g123, fun h => h.elim⟩
        | ok K =>
          simp only [hloop]
          by_cases hb3 : cancelledAt ctx.cancelAt st3.time = true
          · simp only [onProgress, hb3, if_true]
            refine ⟨?_, fun h => h.elim⟩
            exact GoodSeg.glue g123 (GoodSeg_pollTrue st3 hb3)
              (fun h => by simp [isAW, isAttempt, isWrite])
          · simp only [onProgress, hb3, Bool.false_eq_true, if_false]
            refine ⟨?_, fun h => h.elim⟩
            refine GoodSeg.glue g123 ?_ (fun h => by simp [isAW, isAttempt,
              isWrite])
            exact GoodSeg_noUpd rfl (le_refl _) rfl rfl rfl rfl
              (by intro h; simp [isPollTrue] at h)

theorem GoodSeg.stop {cAt : Option Nat} {T : Nat} {st st' : EngineSt}
    {evs : List Ev} (h : GoodSeg cAt T st st' evs) :
    evs.any isPollTrue = true → cancelledAt cAt st'.time = true :=
  h.2.2.2.2.2.2.2

/-- `runTask` is a good segment from its start state for the total it
reports in its `update` events, and the final task counter stays within
that total's budget. -/
theorem runTask_good (ctx : Ctx) (fsys : FileSys) (st : EngineSt) :
    ∃ T : Nat,
      GoodSeg ctx.cancelAt T st (runTask ctx fsys st).2.1
        (runTask ctx fsys st).1 ∧
      (runTask ctx fsys st).2.1.currentTask ≤ st.currentTask + T := by
  have hben := classifyTraced_benign ctx fsys st
  rcases hcl : classifyTraced ctx fsys st with ⟨e1, st1, r⟩
  rw [hcl] at hben
  simp only at hben
  cases r with
  | error m =>
    refine ⟨0, ?_, ?_⟩
    · have g := (classifyTraced_good ctx 0 fsys st).1
      rw [hcl] at g
      simpa [runTask, hcl] using g
    · simp [runTask, hcl, hben.2.2]
  | ok K =>
    set T := totalTasksOf K ctx.cfg.testConfig with hT
    have gcl := classifyTraced_good ctx T fsys st
    rw [hcl] at gcl
    simp only at gcl
    by_cases htot : T = 0
    · refine ⟨0, ?_, ?_⟩
      · have g := (classifyTraced_good ctx 0 fsys st).1
        rw [hcl] at g
        simp only at g
        simp only [runTask, hcl]
        rw [← hT, if_pos htot]
        exact g
      · simp only [runTask, hcl]
        rw [← hT, if_pos htot]
        simp [hben.2.2]
    · refine ⟨T, ?_⟩
      simp only [runTask, hcl]
      rw [← hT, if_neg htot]
      by_cases hc1 : cancelledAt ctx.cancelAt st1.time = true
      · simp only [onProgress, hc1, if_true]
        refine ⟨GoodSeg.glue gcl.1 (GoodSeg_pollTrue st1 hc1)
          (fun _ => by simp [isAW, isAttempt, isWrite]), ?_⟩
        simp [hben.2.2]
      · rw [Bool.not_eq_true] at hc1
        simp only [onProgress, hc1, Bool.false_eq_true, if_false]
        have g2 : GoodSeg ctx.cancelAt T st1 (bump st1 2)
            [Ev.poll false, Ev.log (totalMsg T
              (K.qaPairs.length * ctx.cfg.testConfig.qaCount)
              (K.chunks.length * ctx.cfg.testConfig.chunkCount)
              (K.documents.length * ctx.cfg.testConfig.documentCount)
              ctx.cfg.testConfig.comprehensiveCount)] :=
          GoodSeg_noUpd rfl (le_refl _) rfl rfl rfl rfl
            (by intro h; simp [isPollTrue] at h)
        have gpre : GoodSeg ctx.cancelAt T st (bump st1 2)
            (e1 ++ [Ev.poll false, Ev.log (totalMsg T
              (K.qaPairs.length * ctx.cfg.testConfig.qaCount)
              (K.chunks.length * ctx.cfg.testConfig.chunkCount)
              (K.documents.length * ctx.cfg.testConfig.documentCount)
              ctx.cfg.testConfig.comprehensiveCount)]) :=
          GoodSeg.glue gcl.1 g2
            (fun h => absurd (gcl.1.stop h) (by simp [hc1]))
        have hqa := executeGenerationTask_good ctx K.documents T TaskType.QA
          ctx.cfg.project.qaSystemPrompt (K.qaPairs.map ContentItem.text)
          ctx.cfg.testConfig.qaCount (bump st1 2)
        rcases hq : executeGenerationTask ctx K.documents T TaskType.QA
            ctx.cfg.project.qaSystemPrompt (K.qaPairs.map ContentItem.text)
            ctx.cfg.testConfig.qaCount (bump st1 2) with ⟨e3, st3, c3⟩
        rw [hq] at hqa
        simp only at hqa
        have hcap3 : st3.currentTask ≤ st.currentTask +
            K.qaPairs.length * ctx.cfg.testConfig.qaCount := by
          have := hqa.2.1
          rw [List.length_map] at this
          simpa [hben.2.2] using this
        have gq : GoodSeg ctx.cancelAt T st st3
            ((e1 ++ [Ev.poll false, Ev.log (totalMsg T
              (K.qaPairs.length * ctx.cfg.testConfig.qaCount)
              (K.chunks.length * ctx.cfg.testConfig.chunkCount)
              (K.documents.length * ctx.cfg.testConfig.documentCount)
              ctx.cfg.testConfig.comprehensiveCount)]) ++ e3) :=
          GoodSeg.glue gpre hqa.1 (fun h => hqa.2.2 (gpre.stop h))
        cases c3 with
        | some m =>
          simp only [hq]
          refine ⟨?_, ?_⟩
          · have := gq
            simpa [List.append_assoc] using this
          · refine le_trans hcap3 ?_
            rw [hT, totalTasksOf]
            omega
        | none =>
          simp only [hq]
          by_cases hb1 : cancelledAt ctx.cancelAt st3.time = true
          · simp only [pollEv, hb1, if_true]
            refine ⟨?_, ?_⟩
            · have g := GoodSeg.glue gq (GoodSeg_pollTrue st3 hb1)
                (fun _ => by simp [isAW, isAttempt, isWrite])
              simpa [List.append_assoc] using g
            · refine le_trans (by simpa using hcap3) ?_
              rw [hT, totalTasksOf]
              omega
          · simp only [pollEv, hb1, Bool.false_eq_true, if_false]
            have gq1 : GoodSeg ctx.cancelAt T st (bump st3 1)
                (((e1 ++ [Ev.poll false, Ev.log (totalMsg T
                  (K.qaPairs.length * ctx.cfg.testConfig.qaCount)
                  (K.chunks.length * ctx.cfg.testConfig.chunkCount)
                  (K.documents.length * ctx.cfg.testConfig.documentCount)
                  ctx.cfg.testConfig.comprehensiveCount)]) ++ e3) ++
                  [Ev.poll false]) :=
              GoodSeg.glue gq (GoodSeg_pollFalse st3)
                (fun h => absurd (gq.stop h) (by simp [hb1]))
            have hch := executeGenerationTask_good ctx K.documents T
              TaskType.Chunk ctx.cfg.project.chunkSystemPrompt
              (K.chunks.map ContentItem.text)
              ctx.cfg.testConfig.chunkCount (bump st3 1)
            rcases hc : executeGenerationTask ctx K.documents T TaskType.Chunk
                ctx.cfg.project.chunkSystemPrompt
                (K.chunks.map ContentItem.text)
                ctx.cfg.testConfig.chunkCount (bump st3 1) with ⟨e4, st4, c4⟩
            rw [hc] at hch
            simp only at hch
            have hcap4 : st4.currentTask ≤ st.currentTask +
                K.qaPairs.length * ctx.cfg.testConfig.qaCount +
                K.chunks.length * ctx.cfg.testConfig.chunkCount := by
              have := hch.2.1
              rw [List.length_map] at this
              simp only [bump_currentTask] at this
              omega
            have gc : GoodSeg ctx.cancelAt T st st4
                ((((e1 ++ [Ev.poll false, Ev.log (totalMsg T
                  (K.qaPairs.length * ctx.cfg.testConfig.qaCount)
                  (K.chunks.length * ctx.cfg.testConfig.chunkCount)
                  (K.documents.length * ctx.cfg.testConfig.documentCount)
                  ctx.cfg.testConfig.comprehensiveCount)]) ++ e3) ++
                  [Ev.poll false]) ++ e4) :=
              GoodSeg.glue gq1 hch.1 (fun h => hch.2.2 (gq1.stop h))
            cases c4 with
            | some m =>
              simp only [hc]
              refine ⟨?_, ?_⟩
              · simpa [List.append_assoc] using gc
              · refine le_trans hcap4 ?_
                rw [hT, totalTasksOf]
                omega
            | none =>
              simp only [hc]
              by_cases hb2 : cancelledAt ctx.cancelAt st4.time = true
              · simp only [pollEv, hb2, if_true]
                refine ⟨?_, ?_⟩
                · have g := GoodSeg.glue gc (GoodSeg_pollTrue st4 hb2)
                    (fun _ => by simp [isAW, isAttempt, isWrite])
                  simpa [List.append_assoc] using g
                · refine le_trans (by simpa using hcap4) ?_
                  rw [hT, totalTasksOf]
                  omega
              · simp only [pollEv, hb2, Bool.false_eq_true, if_false]
                have gc1 := GoodSeg.glue gc (GoodSeg_pollFalse st4)
                  (fun h => absurd (gc.stop h) (by simp [hb2]))
                have hdoc := executeGenerationTask_good ctx K.documents T
                  TaskType.Document ctx.cfg.project.documentSystemPrompt
                  (K.documents.map (fun d => ContentItem.doc d.1 d.2))
                  ctx.cfg.testConfig.documentCount (bump st4 1)
                rcases hd : executeGenerationTask ctx K.documents T
                    TaskType.Document ctx.cfg.project.documentSystemPrompt
                    (K.documents.map (fun d => ContentItem.doc d.1 d.2))
                    ctx.cfg.testConfig.documentCount (bump st4 1)
                  with ⟨e5, st5, c5⟩
                rw [hd] at hdoc
                simp only at hdoc
                have hcap5 : st5.currentTask ≤ st.currentTask +
                    K.qaPairs.length * ctx.cfg.testConfig.qaCount +
                    K.chunks.length * ctx.cfg.testConfig.chunkCount +
                    K.documents.length * ctx.cfg.testConfig.documentCount := by
                  have := hdoc.2.1
                  rw [List.length_map] at this
                  simp only [bump_currentTask] at this
                  omega
                have gd := GoodSeg.glue gc1 hdoc.1
                  (fun h => hdoc.2.2 (gc1.stop h))
                cases c5 with
                | some m =>
                  simp only [hd]
                  refine ⟨?_, ?_⟩
                  · simpa [List.append_assoc] using gd
                  · refine le_trans hcap5 ?_
                    rw [hT, totalTasksOf]
                    omega
                | none =>
                  simp only [hd]
                  by_cases hb3 : cancelledAt ctx.cancelAt st5.time = true
                  · simp only [pollEv, hb3, if_true]
                    refine ⟨?_, ?_⟩
                    · have g := GoodSeg.glue gd (GoodSeg_pollTrue st5 hb3)
                        (fun _ => by simp [isAW, isAttempt, isWrite])
                      simpa [List.append_assoc] using g
                    · refine le_trans (by simpa using hcap5) ?_
                      rw [hT, totalTasksOf]
                      omega
                  · simp only [pollEv, hb3, Bool.false_eq_true, if_false]
                    have gd1 := GoodSeg.glue gd (GoodSeg_pollFalse st5)
                      (fun h => absurd (gd.stop h) (by simp [hb3]))
                    have hcomp := executeGenerationTask_good ctx K.documents T
                      TaskType.Comprehensive
                      ctx.cfg.project.comprehensiveSystemPrompt
                      (List.replicate ctx.cfg.testConfig.comprehensiveCount
                        (ContentItem.text ("N/A"))) 1 (bump st5 1)
                    rcases he : executeGenerationTask ctx K.documents T
                        TaskType.Comprehensive
                        ctx.cfg.project.comprehensiveSystemPrompt
                        (List.replicate ctx.cfg.testConfig.comprehensiveCount
                          (ContentItem.text ("N/A"))) 1 (bump st5 1)
                      with ⟨e6, st6, c6⟩
                    rw [he] at hcomp
                    simp only at hcomp
                    have hcap6 : st6.currentTask ≤ st.currentTask + T := by
                      have := hcomp.2.1
                      rw [List.length_replicate] at this
                      simp only [bump_currentTask, Nat.mul_one] at this
                      rw [hT, totalTasksOf]
                      omega
                    have ge := GoodSeg.glue gd1 hcomp.1
                      (fun h => hcomp.2.2 (gd1.stop h))
                    refine ⟨?_, hcap6⟩
                    simpa [List.append_assoc] using ge

/-- The full `POST` stream: all `update` events report one constant
total and carry non-decreasing completed counts bounded by it, no
attempt or result write follows an observed cancellation, and the
result-file writes are exactly the successive snapshots of the final
result list, every entry carrying score 10. -/
theorem runPost_good (ctx : Ctx) (fsys : FileSys) :
    ∃ T : Nat,
      (∀ p ∈ updatePairs (runPost ctx fsys).1, p.2 = T) ∧
      List.Chain' (· ≤ ·) (updateCurrs (runPost ctx fsys).1) ∧
      (∀ x ∈ updateCurrs (runPost ctx fsys).1, x ≤ T) ∧
      noAWafter (runPost ctx fsys).1 = true ∧
      writesOf (runPost ctx fsys).1 =
        snapshotsFrom [] (runPost ctx fsys).2.allResults ∧
      (∀ e ∈ (runPost ctx fsys).2.allResults, e.score = 10) := by
  obtain ⟨T, g, hcap⟩ := runTask_good ctx fsys stStart
  rcases hrt : runTask ctx fsys stStart with ⟨e3, st3, ctl⟩
  rw [hrt] at g hcap
  simp only at g hcap
  obtain ⟨ht, hmono, hbounds, hchain, hpairs, ⟨new, hres, hwrites, hscore⟩,
    hnoAW, hstop⟩ := g
  have hnew : new = st3.allResults := by
    have := hres
    simp only [stStart] at this
    simpa using this.symm
  subst hnew
  have hcap0 : st3.currentTask ≤ T := by simpa [stStart] using hcap
  have hst : bump (bump EngineSt.init 1) 1 = stStart := by
    simp [EngineSt.init, bump, stStart]
  have hwr : writesOf e3 = snapshotsFrom [] st3.allResults := by
    simpa [stStart] using hwrites
  cases ctl with
  | some m =>
    have hform : runPost ctx fsys =
        (Ev.mkdirBase :: Ev.log createdMsg :: (e3 ++
          [Ev.errorEv (if m = cancelMsg then cancelDoneMsg else m)]),
         bump st3 1) := by
      simp [runPost, emit, hst, hrt]
    rw [hform]
    refine ⟨T, ?_, ?_, ?_, ?_, ?_, ?_⟩
    · intro p hp
      simp only [updatePairs, List.filterMap_cons, List.filterMap_append,
        List.filterMap_cons, List.filterMap_nil] at hp
      simp only [List.append_nil] at hp
      exact hpairs p hp
    · simpa [updateCurrs, updatePairs, List.filterMap_cons,
        List.filterMap_append] using hchain
    · intro x hx
      simp only [updateCurrs, updatePairs, List.filterMap_cons,
        List.filterMap_append, List.filterMap_nil, List.append_nil,
        List.map_append] at hx
      exact le_trans (hbounds x (by simpa [updateCurrs, updatePairs]
        using hx)).2 hcap0
    · show noAWafter (e3 ++
        [Ev.errorEv (if m = cancelMsg then cancelDoneMsg else m)]) = true
      exact noAWafter_append e3 _ hnoAW rfl
        (fun _ => by simp [isAW, isAttempt, isWrite])
    · simp only [writesOf, List.filterMap_cons, List.filterMap_append,
        List.filterMap_nil, List.append_nil, bump_allResults]
      exact hwr
    · intro e he
      exact hscore e (by simpa using he)
  | none =>
    by_cases hb : cancelledAt ctx.cancelAt st3.time = true
    · have hform : runPost ctx fsys =
          (Ev.mkdirBase :: Ev.log createdMsg :: (e3 ++ [Ev.poll true]),
           bump st3 1) := by
        simp [runPost, emit, hst, hrt, pollEv, hb]
      rw [hform]
      refine ⟨T, ?_, ?_, ?_, ?_, ?_, ?_⟩
      · intro p hp
        simp only [updatePairs, List.filterMap_cons, List.filterMap_append,
          List.filterMap_nil, List.append_nil] at hp
        exact hpairs p hp
      · simpa [updateCurrs, updatePairs, List.filterMap_cons,
          List.filterMap_append] using hchain
      · intro x hx
        simp only [updateCurrs, updatePairs, List.filterMap_cons,
          List.filterMap_append, List.filterMap_nil, List.append_nil,
          List.map_append] at hx
        exact le_trans (hbounds x (by simpa [updateCurrs, updatePairs]
          using hx)).2 hcap0
      · show noAWafter (e3 ++ [Ev.poll true]) = true
        exact noAWafter_append e3 _ hnoAW rfl
          (fun _ => by simp [isAW, isAttempt, isWrite])
      · simp only [writesOf, List.filterMap_cons, List.filterMap_append,
          List.filterMap_nil, List.append_nil, bump_allResults]
        exact hwr
      · intro e he
        exact hscore e (by simpa using he)
    · have hform : runPost ctx fsys =
          (Ev.mkdirBase :: Ev.log createdMsg ::
            (e3 ++ [Ev.poll false, Ev.done]), bump (bump st3 1) 1) := by
        simp [runPost, emit, hst, hrt, pollEv, hb]
      rw [hform]
      refine ⟨T, ?_, ?_, ?_, ?_, ?_, ?_⟩
      · intro p hp
        simp only [updatePairs, List.filterMap_cons, List.filterMap_append,
          List.filterMap_nil, List.append_nil] at hp
        exact hpairs p hp
      · simpa [updateCurrs, updatePairs, List.filterMap_cons,
          List.filterMap_append] using hchain
      · intro x hx
        simp only [updateCurrs, updatePairs, List.filterMap_cons,
          List.filterMap_append, List.filterMap_nil, List.append_nil,
          List.map_append] at hx
        exact le_trans (hbounds x (by simpa [updateCurrs, updatePairs]
          using hx)).2 hcap0
      · show noAWafter (e3 ++ [Ev.poll false, Ev.done]) = true
        exact noAWafter_append e3 _ hnoAW rfl
          (fun _ => by simp [isAW, isAttempt, isWrite])
      · simp only [writesOf, List.filterMap_cons, List.filterMap_append,
          List.filterMap_nil, List.append_nil, bump_allResults]
        exact hwr
      · intro e he
        exact hscore e (by simpa using he)

/-! ## C5, C6, C8: cancellation, progress and result records -/

/-- A knowledge directory holding one document-classified file. -/
def fsDoc : FileSys := Except.ok [(("doc.txt"), Except.ok threePairFile)]

/-- A document-only run (documentCount 1, all other counts 0) whose
model always throws, cancelled at instant 25 — right after the first
attempt of the single task has started. -/
def ctxC5 : Ctx :=
  ⟨some 25, fun _ _ => AttemptOutcome.err ("boom"),
   ⟨⟨0, 0, 1, 0⟩, ⟨("m"), ("x"), ("x"), ("d"), ("x")⟩⟩⟩

/-- A well-formed model response for the `{question, answer}` shape. -/
def okJson : String := "\x7b\"question\": \"q\", \"answer\": \"a\"\x7d"

/-- The same document-only run, never cancelled, with a model that
answers `okJson` at once. -/
def ctxC8 : Ctx :=
  ⟨none, fun _ _ => AttemptOutcome.ok okJson ⟨3, 1, 2⟩ ⟨0, 0, 0, 0⟩,
   ⟨⟨0, 0, 1, 0⟩, ⟨("m"), ("x"), ("x"), ("d"), ("x")⟩⟩⟩

theorem prog_mono (T x y : Nat) (h : x ≤ y) :
    (x : ℚ) / (T : ℚ) * 100 ≤ (y : ℚ) / (T : ℚ) * 100 := by
  rcases Nat.eq_zero_or_pos T with hT | hT
  · subst hT; simp
  · have hx : (x : ℚ) ≤ (y : ℚ) := by exact_mod_cast h
    have hT' : (0 : ℚ) ≤ (T : ℚ) := by positivity
    gcongr

theorem prog_le_100 (T x : Nat) (h : x ≤ T) :
    (x : ℚ) / (T : ℚ) * 100 ≤ 100 := by
  rcases Nat.eq_zero_or_pos T with hT | hT
  · subst hT; simp
  · have hT' : (0 : ℚ) < (T : ℚ) := by exact_mod_cast hT
    have hx : (x : ℚ) ≤ (T : ℚ) := by exact_mod_cast h
    have h1 : (x : ℚ) / (T : ℚ) ≤ 1 := (div_le_one hT').mpr hx
    calc (x : ℚ) / (T : ℚ) * 100 ≤ 1 * 100 :=
          mul_le_mul_of_nonneg_right h1 (by norm_num)
      _ = 100 := by norm_num

/-- Percentages computed from a sorted count list against one constant
total are sorted. -/
theorem chainQ (T : Nat) :
    ∀ l : List (Nat × Nat), (∀ p ∈ l, p.2 = T) →
      List.Chain' (· ≤ ·) (l.map (fun p => p.1)) →
      List.Chain' (· ≤ ·)
        (l.map (fun p => (p.1 : ℚ) / (p.2 : ℚ) * 100))
  | [], _, _ => List.chain'_nil
  | [p], _, _ => by simp
  | p :: q :: rest, hT, hc => by
    rw [List.map_cons, List.map_cons, List.chain'_cons]
    rw [List.map_cons, List.map_cons, List.chain'_cons] at hc
    refine ⟨?_, ?_⟩
    · have hp := hT p (by simp)
      have hq := hT q (by simp)
      rw [hp, hq]
      exact prog_mono T p.1 q.1 hc.1
    · have := chainQ T (q :: rest)
        (fun x hx => hT x (List.mem_cons_of_mem p hx)) (by simpa using hc.2)
      simpa using this

/-- The Model Invoker emits no cancellation poll at all: its trace is
attempts and retry delays only. -/
theorem safe_no_polls (oracle : Nat → AttemptOutcome) (tid : Nat)
    (msg : String) (r : Nat) :
    (safeModelCall oracle tid msg r).2.countP (fun e => isPoll e) = 0 := by
  have hmem : ∀ e ∈ (safeModelCall oracle tid msg r).2,
      (∃ j, e = Ev.attempt tid j msg) ∨ e = Ev.delay 2000 := by
    obtain ⟨n, _, _, _, hev⟩ := safeGo_shape oracle tid msg r (r + 1) 0
    intro e he
    rw [show (safeModelCall oracle tid msg r).2 =
      (safeGo oracle tid msg r (r + 1) 0).2 from rfl, hev] at he
    exact attemptSeg_mem tid msg n 0 e he
  rw [List.countP_eq_zero]
  intro e he
  rcases hmem e he with ⟨j, rfl⟩ | rfl <;> simp [isPoll]

/-- C5 counterexample: in the document-only run cancelled at instant 25
(trace position 25, just after the first model attempt at position 24
has started), the Model Invoker runs its two retry attempts without any
cancellation poll in between — the claim's "polled before starting each
retry attempt" point does not exist.  The run still ends with the
cancellation error and an empty result list. -/
theorem claim5_counterexample :
    ctxC5.cancelAt = some 25 ∧
    ((runPost ctxC5 fsDoc).1.take 25).countP (fun e => isAttempt e) = 1 ∧
    ((runPost ctxC5 fsDoc).1.drop 25).countP (fun e => isAttempt e) = 2 ∧
    (((runPost ctxC5 fsDoc).1.drop 25).takeWhile
      (fun e => !(isPoll e))).countP (fun e => isAttempt e) = 2 ∧
    (runPost ctxC5 fsDoc).2.allResults = [] ∧
    (runPost ctxC5 fsDoc).1.getLast? = some (Ev.errorEv cancelDoneMsg) :=
  ⟨rfl, by decide, by decide, by decide, rfl, rfl⟩

/-- C5 amended: cancellation is polled before starting a task and at
category boundaries but never inside the Model Invoker (its trace holds
no poll, so a task's retries run to completion once started); in every
run, once a poll observes cancellation no attempt and no result-file
write follows, and the writes are exactly the successive full-list
snapshots of the final result list — the last write is never
truncated. -/
theorem claim5_cancellation :
    (∀ (ctx : Ctx) (fsys : FileSys),
      noAWafter (runPost ctx fsys).1 = true ∧
      writesOf (runPost ctx fsys).1 =
        snapshotsFrom [] (runPost ctx fsys).2.allResults) ∧
    (∀ (oracle : Nat → AttemptOutcome) (tid : Nat) (msg : String) (r : Nat),
      (safeModelCall oracle tid msg r).2.countP (fun e => isPoll e) = 0) := by
  refine ⟨fun ctx fsys => ?_, safe_no_polls⟩
  obtain ⟨T, _, _, _, h4, h5, _⟩ := runPost_good ctx fsys
  exact ⟨h4, h5⟩

/-- C6: in every run the `update` events report one constant total, the
completed counts they carry never decrease and never exceed that total,
and hence the progress percentages they determine never decrease and
never exceed 100. -/
theorem claim6_progress_invariant (ctx : Ctx) (fsys : FileSys) :
    ∃ T : Nat,
      (∀ p ∈ updatePairs (runPost ctx fsys).1, p.2 = T) ∧
      List.Chain' (· ≤ ·) (updateCurrs (runPost ctx fsys).1) ∧
      (∀ x ∈ updateCurrs (runPost ctx fsys).1, x ≤ T) ∧
      List.Chain' (· ≤ ·) ((updatePairs (runPost ctx fsys).1).map
        (fun p => (p.1 : ℚ) / (p.2 : ℚ) * 100)) ∧
      (∀ p ∈ updatePairs (runPost ctx fsys).1,
        (p.1 : ℚ) / (p.2 : ℚ) * 100 ≤ 100) := by
  obtain ⟨T, h1, h2, h3, _, _, _⟩ := runPost_good ctx fsys
  refine ⟨T, h1, h2, h3, ?_, ?_⟩
  · exact chainQ T _ h1 h2
  · intro p hp
    have hx : p.1 ≤ T := h3 p.1 (List.mem_map_of_mem _ hp)
    rw [h1 p hp]
    exact prog_le_100 T p.1 hx

/-- C8 counterexample: the successful document-only run persists exactly
one ResultEntry, and its serialized record carries only the keys id,
taskType, question, answer and score — there is no tokenUsage,
durationMs or error attribute, against the claim's attribute list. -/
theorem claim8_counterexample :
    (runPost ctxC8 fsDoc).2.allResults =
      [⟨1, TaskType.Document, JVal.jstr ("q"), JVal.jstr ("a"), 10⟩] ∧
    writesOf (runPost ctxC8 fsDoc).1 =
      [[⟨1, TaskType.Document, JVal.jstr ("q"), JVal.jstr ("a"), 10⟩]] ∧
    (runPost ctxC8 fsDoc).1.getLast? = some Ev.done ∧
    jGet (resultEntryToJson
      ⟨1, TaskType.Document, JVal.jstr ("q"), JVal.jstr ("a"), 10⟩)
      ("tokenUsage") = none ∧
    jGet (resultEntryToJson
      ⟨1, TaskType.Document, JVal.jstr ("q"), JVal.jstr ("a"), 10⟩)
      ("durationMs") = none ∧
    jGet (resultEntryToJson
      ⟨1, TaskType.Document, JVal.jstr ("q"), JVal.jstr ("a"), 10⟩)
      ("error") = none :=
  ⟨rfl, rfl, rfl, rfl, rfl, rfl⟩

/-- C8 amended: every persisted ResultEntry carries exactly the
attributes id, taskType, question, answer and score (score always 10;
no tokenUsage, durationMs or error attribute exists), and the result
file is rewritten with the full list after every task — the writes are
the successive full-list snapshots of the final result list. -/
theorem claim8_result_records (ctx : Ctx) (fsys : FileSys) :
    writesOf (runPost ctx fsys).1 =
      snapshotsFrom [] (runPost ctx fsys).2.allResults ∧
    (∀ e ∈ (runPost ctx fsys).2.allResults,
      e.score = 10 ∧
      jsonKeys (resultEntryToJson e) =
        [("id"), ("taskType"), ("question"), ("answer"), ("score")]) := by
  obtain ⟨T, _, _, _, _, h5, h6⟩ := runPost_good ctx fsys
  exact ⟨h5, fun e he => ⟨h6 e he, rfl⟩⟩

end EvaluateFactory
